import Mathlib

/-!
Shallow embedding of the model-building core of `tools/dashboard_cli.py`
(Comm0ns dashboard CLI).  Python floats are modelled as exact rationals,
Python ints as `ℤ`, UTC datetimes as epoch seconds (`ℤ`), dates as epoch-day
numbers (`ℤ`), dicts as insertion-ordered association lists and sets as
insertion-ordered duplicate-free lists, matching the CPython dict/set
semantics the source relies on.  Word characters of the `re` module are
modelled as alphanumerics (the inputs of interest are ASCII).  The
presentation-only channel/category leaderboard aggregates of
`build_core_model` are outside the modelled core; every aggregate the claims
mention is embedded.
-/

namespace Dashboard

/-- Constant `REACTION_GIVE_CP = 1.0` from `dashboard_cli.py`. -/
def REACTION_GIVE_CP : ℚ := 1

/-- Constant `DEFAULT_TS = 100.0`. -/
def DEFAULT_TS : ℚ := 100

/-- Constant `MAX_VP = 6`. -/
def MAX_VP : ℤ := 6

/-- `CATEGORY_ORDER` list. -/
def CATEGORY_ORDER : List String := ["INFO", "INSIGHT", "VIBE", "OPS", "MISC"]

/-- `CATEGORY_CP` mapping: INFO 5, INSIGHT 4, VIBE 3, OPS 4, MISC 1. -/
def CATEGORY_CP (cat : String) : ℚ :=
  if cat = "INFO" then 5
  else if cat = "INSIGHT" then 4
  else if cat = "VIBE" then 3
  else if cat = "OPS" then 4
  else 1

/-- `OPS_CHANNEL_HINTS` tuple. -/
def OPS_CHANNEL_HINTS : List String :=
  ["ops", "operation", "運営", "admin", "告知", "schedule", "task", "coord"]

/-- `PROJECT_CHANNEL_HINTS` tuple. -/
def PROJECT_CHANNEL_HINTS : List String :=
  ["開発", "dev", "project", "農業", "本のコモンズ", "build", "tech", "engineer"]

/-- `KNOWLEDGE_CHANNEL_HINTS` tuple. -/
def KNOWLEDGE_CHANNEL_HINTS : List String :=
  ["学び", "learn", "study", "knowledge", "記事", "share", "news", "paper"]

/-- `HOBBY_CHANNEL_HINTS` tuple. -/
def HOBBY_CHANNEL_HINTS : List String :=
  ["ゲーム", "game", "音楽", "music", "hobby", "movie", "anime"]

/-! ### String helpers (kernel-computable models of `str` operations) -/

/-- Does the character list `s` start with the character list `p`? -/
def listStartsWith : List Char → List Char → Bool
  | _, [] => true
  | [], _ :: _ => false
  | c :: cs, p :: ps => c = p && listStartsWith cs ps

/-- Substring containment on character lists (`p in s` for Python strings). -/
def listContainsSub (s p : List Char) : Bool :=
  s.tails.any fun t => listStartsWith t p

/-- `str.lower()` (ASCII case folding, sufficient for the hint sets). -/
def lowerChars (l : List Char) : List Char := l.map Char.toLower

/-- `str.strip()`: remove leading and trailing whitespace. -/
def trimChars (l : List Char) : List Char :=
  ((l.dropWhile Char.isWhitespace).reverse.dropWhile Char.isWhitespace).reverse

/-- `contains_any(text, keywords)`: case-insensitive substring test against a
keyword tuple. -/
def contains_any (text : String) (keywords : List String) : Bool :=
  keywords.any fun k => listContainsSub (lowerChars text.data) (lowerChars k.data)

/-- Is there a non-whitespace character at position `n` of `t`?  (the `\S`
of `URL_RE` right after the matched literal part.) -/
def hasNonSpaceAt (t : List Char) (n : Nat) : Bool :=
  match t.drop n with
  | [] => false
  | c :: _ => !c.isWhitespace

/-- Does a match of `URL_RE = (https?://\S+|www\.\S+)` (case-insensitive)
start at the head of the already-lowercased tail `t`? -/
def urlMatchAt (t : List Char) : Bool :=
  (listStartsWith t "http://".data && hasNonSpaceAt t 7) ||
  (listStartsWith t "https://".data && hasNonSpaceAt t 8) ||
  (listStartsWith t "www.".data && hasNonSpaceAt t 4)

/-- `URL_RE.search(text) is not None`. -/
def hasUrl (text : List Char) : Bool :=
  (lowerChars text).tails.any urlMatchAt

/-- `NON_WORD_RE.sub("", text)`: strip every character matching `[\W_]+`;
what remains are the word characters other than underscore, i.e. the
alphanumerics. -/
def stripNonWord (text : List Char) : List Char :=
  text.filter fun c => c.isAlphanum

/-! ### The pure classifier and numeric derivations -/

/-- `classify_message(content, channel_name)`; `content` is `None` or a
string, and `str(content or "")` collapses both falsy cases to `""`. -/
def classify_message (content : Option String) (channel_name : String) : String :=
  let text : List Char := trimChars (content.getD "").data
  if text = [] then "MISC"
  else if hasUrl text then "INFO"
  else if contains_any channel_name OPS_CHANNEL_HINTS then "OPS"
  else if (stripNonWord text).length < 5 then "VIBE"
  else if text.length > 200 then "INSIGHT"
  else "MISC"

/-- `channel_weight(channel_name)`. -/
def channel_weight (channel_name : String) : ℚ :=
  let lower : String := ⟨lowerChars channel_name.data⟩
  if contains_any lower PROJECT_CHANNEL_HINTS || contains_any lower KNOWLEDGE_CHANNEL_HINTS then
    12/10
  else if contains_any lower HOBBY_CHANNEL_HINTS then 8/10
  else 1

/-- `calc_vp(effective_cp_total)`.  For `x > 0` one has `x + 1 > 1`, and
`math.floor(math.log2(x + 1))` equals `Nat.log 2 ⌊x + 1⌋.toNat` (proved as
part of the C1 theorem below), so the embedding uses the latter. -/
def calc_vp (effective_cp_total : ℚ) : ℤ :=
  if effective_cp_total ≤ 0 then 1
  else
    let vp : ℤ := (Nat.log 2 ⌊effective_cp_total + 1⌋.toNat : ℤ) + 1
    max 1 (min MAX_VP vp)

/-! ### Dates (UTC epoch seconds) -/

/-- `datetime.date()` of a UTC instant, as an epoch-day number. -/
def dateOf (t : ℤ) : ℤ := Int.fdiv t 86400

/-- `datetime.weekday()`: Monday = 0.  1970-01-01 was a Thursday. -/
def weekdayOf (t : ℤ) : ℕ := (Int.fmod (dateOf t + 3) 7).toNat

/-- `datetime.hour` of a UTC instant. -/
def hourOf (t : ℤ) : ℕ := (Int.fmod t 86400).toNat / 3600

/-! ### Insertion-ordered dictionaries and sets -/

/-- `dict.get(a)`. -/
def lookupA {α β : Type} [DecidableEq α] : List (α × β) → α → Option β
  | [], _ => none
  | (k, v) :: rest, a => if k = a then some v else lookupA rest a

/-- `dict.get(a, d)`. -/
def getA {α β : Type} [DecidableEq α] (m : List (α × β)) (a : α) (d : β) : β :=
  (lookupA m a).getD d

/-- `dict[a] = v`: update in place if present, else append (CPython order). -/
def setA {α β : Type} [DecidableEq α] : List (α × β) → α → β → List (α × β)
  | [], a, v => [(a, v)]
  | (k, w) :: rest, a, v => if k = a then (k, v) :: rest else (k, w) :: setA rest a v

/-- `m[a] = f(m.get(a, d))`; with `d` the zero of a `defaultdict` this is the
`m[a] += x` pattern of the source. -/
def modifyA {α β : Type} [DecidableEq α] (m : List (α × β)) (a : α) (d : β) (f : β → β) :
    List (α × β) :=
  setA m a (f (getA m a d))

/-- `set.add` (insertion-ordered, duplicate-free). -/
def insertS {α : Type} [DecidableEq α] (s : List α) (a : α) : List α :=
  if a ∈ s then s else s ++ [a]

/-! ### Input rows (after the `as_int` / `parse_dt` decoding of the source;
an unparseable datetime is `none`, a missing/unparseable id is `0`) -/

/-- A `messages` row as consumed by `build_core_model`. -/
structure Msg where
  message_id : ℤ
  user_id : ℤ
  channel_id : ℤ
  content : Option String
  timestamp : Option ℤ
deriving DecidableEq

/-- A `reactions` row; `weight` is selected by the fetch but never read by
the aggregation. -/
structure Reaction where
  message_id : ℤ
  user_id : ℤ
  created_at : Option ℤ
  weight : ℚ
deriving DecidableEq

/-- A `channels` row. -/
structure ChannelRow where
  channel_id : ℤ
  name : Option String
deriving DecidableEq

/-- A `users` row. -/
structure UserRow where
  user_id : ℤ
  username : String
deriving DecidableEq

/-- A `members` row for the trust-score lookup: each candidate id column and
each candidate trust field may be absent. -/
structure MemberRow where
  user_id : Option ℤ
  member_id : Option ℤ
  discord_user_id : Option ℤ
  id : Option ℤ
  ts : Option ℚ
  trust_score : Option ℚ
  ts_score : Option ℚ
  trust : Option ℚ
deriving DecidableEq

/-- The unchanged snapshot of collaborator-store rows a build runs against. -/
structure Snapshot where
  messages : List Msg
  reactions : List Reaction
  channels : List ChannelRow
  users : List UserRow
  members : List MemberRow
deriving DecidableEq

/-! ### Trust-score fetch (`fetch_members_ts_by_ids`) -/

/-- Python `a or b or ... or DEFAULT_TS` over the candidate trust fields:
the first present and truthy (non-zero) value wins, else the default. -/
def firstTruthy (vals : List (Option ℚ)) (d : ℚ) : ℚ :=
  match vals with
  | [] => d
  | none :: rest => firstTruthy rest d
  | some x :: rest => if x = 0 then firstTruthy rest d else x

/-- The clamped trust score a `members` row supplies:
`max(0.0, min(100.0, as_float(row.get("ts") or ... or DEFAULT_TS)))`. -/
def tsOfRow (r : MemberRow) : ℚ :=
  max 0 (min 100 (firstTruthy [r.ts, r.trust_score, r.ts_score, r.trust] DEFAULT_TS))

/-- The value of one candidate id column of a row, decoded with `as_int`
(absent → 0). -/
def idColValue (r : MemberRow) (col : String) : ℤ :=
  (if col = "user_id" then r.user_id
   else if col = "member_id" then r.member_id
   else if col = "discord_user_id" then r.discord_user_id
   else if col = "id" then r.id
   else none).getD 0

/-- The trust map one candidate id column yields: rows whose id-column value
is among the requested ids (the `.in_` filter), keyed by that value,
later rows overwriting earlier ones, zero ids skipped. -/
def tsMapForCol (rows : List MemberRow) (ids : List ℤ) (col : String) : List (ℤ × ℚ) :=
  rows.foldl
    (fun m r =>
      let uid := idColValue r col
      if uid ∈ ids then if uid = 0 then m else setA m uid (tsOfRow r) else m)
    []

/-- The candidate id columns, in the order they are tried. -/
def ID_CANDIDATES : List String := ["user_id", "member_id", "discord_user_id", "id"]

/-- `fetch_members_ts_by_ids(client, user_ids)`: the first id column that
yields a non-empty map wins; no ids requested yields the empty map. -/
def fetch_members_ts_by_ids (rows : List MemberRow) (user_ids : List ℤ) : List (ℤ × ℚ) :=
  if user_ids = [] then []
  else
    let maps := ID_CANDIDATES.map (tsMapForCol rows user_ids)
    ((maps.find? fun m => !m.isEmpty).getD [])

/-! ### Per-user statistics -/

/-- The per-user aggregate dict of `build_core_model` (`ensure_user` shape
plus the keys the derivation pass adds). -/
structure UserStats where
  user_id : ℤ
  username : String
  ts : ℚ
  raw_cp_total : ℚ := 0
  raw_cp_30d : ℚ := 0
  msg_count_total : ℕ := 0
  msg_count_30d : ℕ := 0
  reaction_given_total : ℕ := 0
  reaction_given_30d : ℕ := 0
  category_counts : List (String × ℕ) := CATEGORY_ORDER.map fun c => (c, 0)
  category_cp : List (String × ℚ) := CATEGORY_ORDER.map fun c => (c, 0)
  category_cp_30d : List (String × ℚ) := CATEGORY_ORDER.map fun c => (c, 0)
  daily_cp : List (ℤ × ℚ) := []
  activity_days : List ℤ := []
  rank_30d : ℕ := 0
  rank_total : ℕ := 0
  effective_cp_total : ℚ := 0
  effective_cp_30d : ℚ := 0
  vp : ℤ := 0
  effective_vp : ℤ := 0
  current_streak : ℕ := 0
  longest_streak : ℕ := 0
deriving DecidableEq

/-- `username or f"user-{uid}"`. -/
def usernameOr (username : Option String) (uid : ℤ) : String :=
  match username with
  | some u => if u = "" then "user-" ++ toString uid else u
  | none => "user-" ++ toString uid

/-- The fresh entry `ensure_user` creates on first access. -/
def initUser (member_ts : List (ℤ × ℚ)) (uid : ℤ) (username : Option String) : UserStats :=
  { user_id := uid
    username := usernameOr username uid
    ts := getA member_ts uid DEFAULT_TS }

/-- `ensure_user(uid, username)` acting on the `user_stats` dict. -/
def ensure_user (member_ts : List (ℤ × ℚ)) (stats : List (ℤ × UserStats)) (uid : ℤ)
    (username : Option String) : List (ℤ × UserStats) :=
  match lookupA stats uid with
  | none => stats ++ [(uid, initUser member_ts uid username)]
  | some u =>
    match username with
    | some name =>
        if name ≠ "" ∧ listStartsWith u.username.data "user-".data then
          setA stats uid { u with username := name }
        else stats
    | none => stats

/-! ### The aggregation fold -/

/-- One `category_totals` bucket. -/
structure CatTotal where
  count : ℕ := 0
  raw_cp : ℚ := 0
  raw_cp_30d : ℚ := 0
deriving DecidableEq

/-- The mutable accumulators of the message/reaction loops. -/
structure FoldState where
  user_stats : List (ℤ × UserStats) := []
  message_owner : List (ℤ × ℤ) := []
  category_totals : List (String × CatTotal) := CATEGORY_ORDER.map fun c => (c, {})
  daily_total_cp : List (ℤ × ℚ) := []
  daily_total_messages : List (ℤ × ℕ) := []
  daily_active_users : List (ℤ × List ℤ) := []
  heatmap_messages : List ((ℕ × ℕ) × ℕ) := []
  heatmap_cp : List ((ℕ × ℕ) × ℚ) := []
  edge_weights : List ((ℤ × ℤ) × ℚ) := []
deriving DecidableEq

/-- `normalize_channel_name(name, channel_id)`. -/
def normalize_channel_name (name : Option String) (channel_id : ℤ) : String :=
  match name with
  | some s => if trimChars s.data ≠ [] then s else "channel-" ++ toString channel_id
  | none => "channel-" ++ toString channel_id

/-- The per-user mutations of one message (lines 556-566 of the source). -/
def msgUserUpdate (category : String) (raw_cp : ℚ) (day day_30_ago : ℤ)
    (u : UserStats) : UserStats :=
  let u :=
    { u with
      raw_cp_total := u.raw_cp_total + raw_cp
      msg_count_total := u.msg_count_total + 1
      category_counts := modifyA u.category_counts category 0 (· + 1)
      category_cp := modifyA u.category_cp category 0 (· + raw_cp)
      daily_cp := modifyA u.daily_cp day 0 (· + raw_cp)
      activity_days := insertS u.activity_days day }
  if day ≥ day_30_ago then
    { u with
      raw_cp_30d := u.raw_cp_30d + raw_cp
      msg_count_30d := u.msg_count_30d + 1
      category_cp_30d := modifyA u.category_cp_30d category 0 (· + raw_cp) }
  else u

/-- The `category_totals` mutations of one message. -/
def catTotalUpdate (raw_cp : ℚ) (day day_30_ago : ℤ) (c : CatTotal) : CatTotal :=
  let c := { c with count := c.count + 1, raw_cp := c.raw_cp + raw_cp }
  if day ≥ day_30_ago then { c with raw_cp_30d := c.raw_cp_30d + raw_cp } else c

/-- The per-user mutations of one reaction (lines 612-618 of the source):
the give-side credit of exactly `REACTION_GIVE_CP`. -/
def reactionUserUpdate (day day_30_ago : ℤ) (u : UserStats) : UserStats :=
  let raw_cp := REACTION_GIVE_CP
  let u :=
    { u with
      raw_cp_total := u.raw_cp_total + raw_cp
      reaction_given_total := u.reaction_given_total + 1
      daily_cp := modifyA u.daily_cp day 0 (· + raw_cp)
      activity_days := insertS u.activity_days day }
  if day ≥ day_30_ago then
    { u with
      raw_cp_30d := u.raw_cp_30d + raw_cp
      reaction_given_30d := u.reaction_given_30d + 1 }
  else u

/-- The body of the `for message in messages` loop. -/
def applyMessage (member_ts : List (ℤ × ℚ)) (channel_name_by_id : List (ℤ × String))
    (day_30_ago trend_start : ℤ) (st : FoldState) (m : Msg) : FoldState :=
  if m.user_id = 0 ∨ m.message_id = 0 then st
  else
    let st := { st with user_stats := ensure_user member_ts st.user_stats m.user_id none }
    match m.timestamp with
    | none => st
    | some t =>
      let day := dateOf t
      let channel_name :=
        getA channel_name_by_id m.channel_id ("channel-" ++ toString m.channel_id)
      let category := classify_message m.content channel_name
      let raw_cp := CATEGORY_CP category * channel_weight channel_name
      let st :=
        { st with
          user_stats :=
            modifyA st.user_stats m.user_id (initUser member_ts m.user_id none)
              (msgUserUpdate category raw_cp day day_30_ago) }
      let st :=
        { st with
          category_totals :=
            modifyA st.category_totals category {} (catTotalUpdate raw_cp day day_30_ago) }
      let st :=
        if day ≥ trend_start then
          { st with
            daily_total_cp := modifyA st.daily_total_cp day 0 (· + raw_cp)
            daily_total_messages := modifyA st.daily_total_messages day 0 (· + 1)
            daily_active_users :=
              modifyA st.daily_active_users day [] fun s => insertS s m.user_id }
        else st
      let st :=
        { st with
          heatmap_messages := modifyA st.heatmap_messages (weekdayOf t, hourOf t) 0 (· + 1)
          heatmap_cp := modifyA st.heatmap_cp (weekdayOf t, hourOf t) 0 (· + raw_cp) }
      { st with message_owner := setA st.message_owner m.message_id m.user_id }

/-- The body of the `for reaction in reactions` loop.  The row's `weight`
field is never consulted; the contribution is the constant
`REACTION_GIVE_CP` and each social edge increment is `1.0`. -/
def applyReaction (member_ts : List (ℤ × ℚ)) (day_30_ago trend_start : ℤ)
    (st : FoldState) (r : Reaction) : FoldState :=
  if r.user_id = 0 then st
  else
    let st := { st with user_stats := ensure_user member_ts st.user_stats r.user_id none }
    match r.created_at with
    | none => st
    | some t =>
      let day := dateOf t
      let raw_cp := REACTION_GIVE_CP
      let st :=
        { st with
          user_stats :=
            modifyA st.user_stats r.user_id (initUser member_ts r.user_id none)
              (reactionUserUpdate day day_30_ago) }
      let st :=
        if day ≥ trend_start then
          { st with
            daily_total_cp := modifyA st.daily_total_cp day 0 (· + raw_cp)
            daily_active_users :=
              modifyA st.daily_active_users day [] fun s => insertS s r.user_id }
        else st
      match lookupA st.message_owner r.message_id with
      | none => st
      | some target_id =>
          if target_id ≠ 0 ∧ target_id ≠ r.user_id then
            { st with
              edge_weights := modifyA st.edge_weights (r.user_id, target_id) 0 (· + 1) }
          else st

/-! ### Derivation pass: effective scores, voting power, streaks -/

/-- Ascending stable insertion of an integer into a sorted list. -/
def insertAsc (x : ℤ) : List ℤ → List ℤ
  | [] => [x]
  | y :: ys => if x < y then x :: y :: ys else y :: insertAsc x ys

/-- `sorted(...)` on a list of days. -/
def sortAsc : List ℤ → List ℤ
  | [] => []
  | x :: xs => insertAsc x (sortAsc xs)

/-- The inner run-length scan of the longest-streak loop. -/
def longestRun (prev : ℤ) (run longest : ℕ) : List ℤ → ℕ
  | [] => longest
  | d :: rest =>
      let run2 := if d = prev + 1 then run + 1 else 1
      longestRun d run2 (max longest run2) rest

/-- `longest_streak` over the sorted active days. -/
def longest_streak (days : List ℤ) : ℕ :=
  match days with
  | [] => 0
  | d :: rest => longestRun d 1 1 rest

/-- The `while cursor in day_set` countdown from today; the day set is
duplicate-free, so the loop exits within `|day_set| + 1` probes. -/
def current_streak (day_set : List ℤ) (today : ℤ) : ℕ :=
  ((List.range (day_set.length + 1)).takeWhile fun i => (today - (i : ℤ)) ∈ day_set).length

/-- The per-user derivation pass (effective scores, VP, streaks); mirrors
the `for uid, stats in user_stats.items()` loop. -/
def deriveUser (today : ℤ) (u : UserStats) : UserStats :=
  let ts := max 0 (min 100 u.ts)
  let effective_total := u.raw_cp_total * (ts / 100)
  let effective_30d := u.raw_cp_30d * (ts / 100)
  let vp := calc_vp effective_total
  { u with
    ts := ts
    effective_cp_total := effective_total
    effective_cp_30d := effective_30d
    vp := vp
    effective_vp := max 1 ⌊(vp : ℚ) * (ts / 100)⌋
    longest_streak := longest_streak (sortAsc u.activity_days)
    current_streak := current_streak u.activity_days today }

/-! ### Ranking (stable descending sort on a lexicographic key, the
semantics of `sorted(..., key=..., reverse=True)`) -/

/-- Strict lexicographic greater-than on a `(primary, tie-break)` key pair,
the comparison Python uses on the sort key tuples. -/
def lexGt (a b : ℚ × ℚ) : Bool :=
  decide (b.1 < a.1) || (decide (a.1 = b.1) && decide (b.2 < a.2))

/-- Stable descending insertion: `x` goes before the first strictly smaller
element, hence after every earlier element with an equal key. -/
def insertDesc {α : Type} (key : α → ℚ × ℚ) (x : α) : List α → List α
  | [] => [x]
  | y :: ys => if lexGt (key y) (key x) then y :: insertDesc key x ys else x :: y :: ys

/-- Stable descending sort, extensionally equal to CPython's stable
`sorted(..., key=key, reverse=True)`. -/
def sortDesc {α : Type} (key : α → ℚ × ℚ) : List α → List α
  | [] => []
  | x :: xs => insertDesc key x (sortDesc key xs)

/-- The 30-day ranking key `(effective_cp_30d, raw_cp_30d)`. -/
def key30 (u : UserStats) : ℚ × ℚ := (u.effective_cp_30d, u.raw_cp_30d)

/-- The all-time ranking key `(effective_cp_total, raw_cp_total)`. -/
def keyTotal (u : UserStats) : ℚ × ℚ := (u.effective_cp_total, u.raw_cp_total)

/-- The position of a user id in a ranked list (`enumerate(...)`'s index of
that user's dict). -/
def rankOf (l : List UserStats) (uid : ℤ) : ℕ :=
  l.findIdx fun v => v.user_id == uid

/-- The rank fields the two `enumerate` loops write into each user dict
(each user occurs exactly once in each ranked list, so the written rank is
one plus the user's position there). -/
def assignRanks (ranked30 rankedTot : List UserStats) (u : UserStats) : UserStats :=
  { u with
    rank_30d := 1 + rankOf ranked30 u.user_id
    rank_total := 1 + rankOf rankedTot u.user_id }

/-! ### The whole build -/

/-- The derived model (the presentation-only channel/category leaderboards
aside). -/
structure Model where
  scan_days : ℤ
  users_count : ℕ
  messages_count : ℕ
  reactions_count : ℕ
  stats_by_user : List (ℤ × UserStats)
  ranked_30d : List UserStats
  ranked_total : List UserStats
  category_totals : List (String × CatTotal)
  daily_total_cp : List (ℤ × ℚ)
  daily_total_messages : List (ℤ × ℕ)
  daily_active_users : List (ℤ × List ℤ)
  heatmap_messages : List ((ℕ × ℕ) × ℕ)
  heatmap_cp : List ((ℕ × ℕ) × ℚ)
  top_edges : List ((ℤ × ℤ) × ℚ)
  top_nodes : List (ℤ × ℚ)
  message_owner : List (ℤ × ℤ)
  edge_weights : List ((ℤ × ℤ) × ℚ)
  day_7_ago : ℤ
  day_30_ago : ℤ
deriving DecidableEq

/-- The distinct observed user ids, in fetch order (messages first, then
reactions), zero ids excluded. -/
def seenUserIds (messages : List Msg) (reactions : List Reaction) : List ℤ :=
  let s1 := messages.foldl
    (fun acc m => if m.user_id ≠ 0 ∧ m.user_id ∉ acc then acc ++ [m.user_id] else acc) []
  reactions.foldl
    (fun acc r => if r.user_id ≠ 0 ∧ r.user_id ∉ acc then acc ++ [r.user_id] else acc) s1

/-- The ids kept after the user-cap truncation. -/
def keptUserIds (max_users : ℤ) (messages : List Msg) (reactions : List Reaction) : List ℤ :=
  let seen := seenUserIds messages reactions
  if 0 < max_users ∧ (seen.length : ℤ) > max_users then seen.take max_users.toNat else seen

/-- The start of the trend window: the day of
`now - timedelta(days=max(1, trend_days) - 1)`. -/
def trendStart (trend_days : ℤ) (now : ℤ) : ℤ :=
  dateOf (now - (max 1 trend_days - 1) * 86400)

/-- `messages` after the user-cap truncation of lines 477-481. -/
def keptMessages (max_users : ℤ) (snap : Snapshot) : List Msg :=
  let seen := seenUserIds snap.messages snap.reactions
  if 0 < max_users ∧ (seen.length : ℤ) > max_users then
    snap.messages.filter fun m =>
      m.user_id ∈ keptUserIds max_users snap.messages snap.reactions
  else snap.messages

/-- `reactions` after the user-cap truncation. -/
def keptReactions (max_users : ℤ) (snap : Snapshot) : List Reaction :=
  let seen := seenUserIds snap.messages snap.reactions
  if 0 < max_users ∧ (seen.length : ℤ) > max_users then
    snap.reactions.filter fun r =>
      r.user_id ∈ keptUserIds max_users snap.messages snap.reactions
  else snap.reactions

/-- `fetch_users_by_ids(client, seen_user_ids)`: the `users` table rows
restricted to the kept ids (the `.in_` filter). -/
def keptUsers (max_users : ℤ) (snap : Snapshot) : List UserRow :=
  snap.users.filter fun u =>
    u.user_id ∈ keptUserIds max_users snap.messages snap.reactions

/-- The trust map `member_ts_by_user` a build works with. -/
def memberTs (max_users : ℤ) (snap : Snapshot) : List (ℤ × ℚ) :=
  fetch_members_ts_by_ids snap.members (keptUserIds max_users snap.messages snap.reactions)

/-- `(now - timedelta(days=30)).date()`. -/
def day30ago (now : ℤ) : ℤ := dateOf (now - 30 * 86400)

/-- `(now - timedelta(days=7)).date()`. -/
def day7ago (now : ℤ) : ℤ := dateOf (now - 7 * 86400)

/-- `channel_name_by_id`. -/
def channelNames (channels : List ChannelRow) : List (ℤ × String) :=
  channels.foldl
    (fun m c => setA m c.channel_id (normalize_channel_name c.name c.channel_id)) []

/-- The `for user in users: ensure_user(...)` seeding loop. -/
def initialState (member_ts : List (ℤ × ℚ)) (users : List UserRow) : FoldState :=
  users.foldl
    (fun st u =>
      if u.user_id = 0 then st
      else
        { st with
          user_stats :=
            ensure_user member_ts st.user_stats u.user_id
              (some (usernameOr (some u.username) u.user_id)) })
    {}

/-- The fold state after the seeding loop, the message loop and the
reaction loop. -/
def coreState (trend_days max_users now : ℤ) (snap : Snapshot) : FoldState :=
  (keptReactions max_users snap).foldl
    (applyReaction (memberTs max_users snap) (day30ago now) (trendStart trend_days now))
    ((keptMessages max_users snap).foldl
      (applyMessage (memberTs max_users snap) (channelNames snap.channels)
        (day30ago now) (trendStart trend_days now))
      (initialState (memberTs max_users snap) (keptUsers max_users snap)))

/-- `user_stats` after the per-user derivation pass. -/
def coreStats (trend_days max_users now : ℤ) (snap : Snapshot) : List (ℤ × UserStats) :=
  (coreState trend_days max_users now snap).user_stats.map fun p =>
    (p.1, deriveUser (dateOf now) p.2)

/-- The 30-day ranking before rank assignment. -/
def ranked30Base (trend_days max_users now : ℤ) (snap : Snapshot) : List UserStats :=
  sortDesc key30 ((coreStats trend_days max_users now snap).map Prod.snd)

/-- The all-time ranking before rank assignment. -/
def rankedTotBase (trend_days max_users now : ℤ) (snap : Snapshot) : List UserStats :=
  sortDesc keyTotal ((coreStats trend_days max_users now snap).map Prod.snd)

/-- `node_degree` accumulated over the sorted edge list. -/
def nodeDegree (edges : List ((ℤ × ℤ) × ℚ)) : List (ℤ × ℚ) :=
  edges.foldl (fun m e => modifyA (modifyA m e.1.1 0 (· + e.2)) e.1.2 0 (· + e.2)) []

/-- `build_core_model`, as a pure function of the configuration, the
explicit clock reading `now` (epoch seconds; the source samples
`datetime.now(timezone.utc)` here) and the snapshot of fetched rows.  The
`fetch_users_by_ids` / `fetch_members_ts_by_ids` calls restrict their
tables to the kept ids (`.in_(...)` filters). -/
def build_core_model (trend_days lookback_days max_users : ℤ) (now : ℤ)
    (snap : Snapshot) : Model :=
  let st2 := coreState trend_days max_users now snap
  let stats := coreStats trend_days max_users now snap
  let ranked30 := ranked30Base trend_days max_users now snap
  let rankedTot := rankedTotBase trend_days max_users now snap
  let withRanks := assignRanks ranked30 rankedTot
  let top_edges := sortDesc (fun e => (e.2, 0)) st2.edge_weights
  { scan_days := max 30 (max trend_days lookback_days)
    users_count := stats.length
    messages_count := (keptMessages max_users snap).length
    reactions_count := (keptReactions max_users snap).length
    stats_by_user := stats.map fun p => (p.1, withRanks p.2)
    ranked_30d := ranked30.map withRanks
    ranked_total := rankedTot.map withRanks
    category_totals := st2.category_totals
    daily_total_cp := st2.daily_total_cp
    daily_total_messages := st2.daily_total_messages
    daily_active_users := st2.daily_active_users
    heatmap_messages := st2.heatmap_messages
    heatmap_cp := st2.heatmap_cp
    top_edges := top_edges
    top_nodes := sortDesc (fun n => (n.2, 0)) (nodeDegree top_edges)
    message_owner := st2.message_owner
    edge_weights := st2.edge_weights
    day_7_ago := day7ago now
    day_30_ago := day30ago now }

/-! ## General lemmas about the dictionary and sorting models -/

lemma mem_setA {α β : Type} [DecidableEq α] {m : List (α × β)} {k : α} {v : β} {p : α × β} :
    p ∈ setA m k v → p = (k, v) ∨ p ∈ m := by
  induction m with
  | nil => intro h; simpa [setA] using h
  | cons q rest ih =>
      intro h
      rw [setA] at h
      by_cases hk : q.1 = k
      · rw [if_pos hk] at h
        rcases List.mem_cons.mp h with h | h
        · left; rw [h, hk]
        · right; exact List.mem_cons_of_mem _ h
      · rw [if_neg hk] at h
        rcases List.mem_cons.mp h with h | h
        · right; rw [h]; exact List.mem_cons_self _ _
        · rcases ih h with h' | h'
          · left; exact h'
          · right; exact List.mem_cons_of_mem _ h'

lemma mem_modifyA {α β : Type} [DecidableEq α] {m : List (α × β)} {k : α} {d : β}
    {f : β → β} {p : α × β} (h : p ∈ modifyA m k d f) : p.1 = k ∨ p ∈ m := by
  rcases mem_setA h with h' | h'
  · left; rw [h']
  · right; exact h'

lemma lookupA_eq_none {α β : Type} [DecidableEq α] {m : List (α × β)} {k : α} :
    lookupA m k = none ↔ k ∉ m.map Prod.fst := by
  induction m with
  | nil => simp [lookupA]
  | cons q rest ih =>
      rw [lookupA]
      by_cases hk : q.1 = k
      · simp [hk]
      · simp [hk, ih, Ne.symm hk]

lemma lookupA_some_mem {α β : Type} [DecidableEq α] {m : List (α × β)} {k : α} {v : β}
    (h : lookupA m k = some v) : (k, v) ∈ m := by
  induction m with
  | nil => simp [lookupA] at h
  | cons q rest ih =>
      rw [lookupA] at h
      by_cases hk : q.1 = k
      · rw [if_pos hk] at h
        have : q = (k, v) := by
          cases q; cases h; cases hk; rfl
        rw [← this]; exact List.mem_cons_self _ _
      · rw [if_neg hk] at h
        exact List.mem_cons_of_mem _ (ih h)

lemma setA_map_fst {α β : Type} [DecidableEq α] (m : List (α × β)) (k : α) (v : β) :
    (setA m k v).map Prod.fst =
      if k ∈ m.map Prod.fst then m.map Prod.fst else m.map Prod.fst ++ [k] := by
  induction m with
  | nil => simp [setA]
  | cons q rest ih =>
      rw [setA]
      by_cases hk : q.1 = k
      · simp [hk]
      · rw [if_neg hk]
        simp only [List.map_cons, List.mem_cons, ih]
        by_cases hm : k ∈ rest.map Prod.fst
        · simp [hm, Ne.symm hk]
        · simp [hm, Ne.symm hk]

lemma lookupA_setA_self {α β : Type} [DecidableEq α] (m : List (α × β)) (k : α) (v : β) :
    lookupA (setA m k v) k = some v := by
  induction m with
  | nil => simp [setA, lookupA]
  | cons q rest ih =>
      rw [setA]
      by_cases hk : q.1 = k
      · rw [if_pos hk, lookupA, if_pos hk]
      · rw [if_neg hk, lookupA, if_neg hk]; exact ih

lemma lookupA_setA_ne {α β : Type} [DecidableEq α] (m : List (α × β)) {k k' : α} (v : β)
    (h : k' ≠ k) : lookupA (setA m k v) k' = lookupA m k' := by
  induction m with
  | nil =>
      have hne : ¬k = k' := fun hh => h hh.symm
      simp [setA, lookupA, hne]
  | cons q rest ih =>
      rw [setA]
      by_cases hk : q.1 = k
      · rw [if_pos hk, lookupA, lookupA]
        have : q.1 ≠ k' := by rw [hk]; exact fun hh => h hh.symm
        rw [if_neg this, if_neg (hk ▸ this)]
      · rw [if_neg hk, lookupA, lookupA]
        by_cases hq : q.1 = k'
        · rw [if_pos hq, if_pos hq]
        · rw [if_neg hq, if_neg hq]; exact ih

lemma mem_insertS {α : Type} [DecidableEq α] {s : List α} {a x : α}
    (h : x ∈ insertS s a) : x = a ∨ x ∈ s := by
  rw [insertS] at h
  by_cases ha : a ∈ s
  · right; rwa [if_pos ha] at h
  · rw [if_neg ha] at h
    rcases List.mem_append.mp h with h' | h'
    · right; exact h'
    · left; simpa using h'

/-! ### The stable descending sort -/

/-- Weak lexicographic order on the sort keys (`a` may follow `b` in a
descending run exactly when `lexLe a b`). -/
def lexLe (a b : ℚ × ℚ) : Prop := a.1 < b.1 ∨ (a.1 = b.1 ∧ a.2 ≤ b.2)

lemma lexLe_refl (a : ℚ × ℚ) : lexLe a a := Or.inr ⟨rfl, le_refl _⟩

lemma lexLe_trans {a b c : ℚ × ℚ} (h1 : lexLe a b) (h2 : lexLe b c) : lexLe a c := by
  rcases h1 with h1 | ⟨h1, h1'⟩
  · rcases h2 with h2 | ⟨h2, _⟩
    · exact Or.inl (lt_trans h1 h2)
    · exact Or.inl (h2 ▸ h1)
  · rcases h2 with h2 | ⟨h2, h2'⟩
    · exact Or.inl (h1 ▸ h2)
    · exact Or.inr ⟨h1.trans h2, le_trans h1' h2'⟩

lemma lexGt_eq_false_iff {a b : ℚ × ℚ} : lexGt a b = false ↔ lexLe a b := by
  rw [lexGt, lexLe]
  simp only [Bool.or_eq_false_iff, Bool.and_eq_false_iff, decide_eq_false_iff_not, not_lt]
  constructor
  · rintro ⟨h1, h2⟩
    rcases lt_or_eq_of_le h1 with hlt | heq
    · exact Or.inl hlt
    · rcases h2 with h2 | h2
      · exact absurd heq h2
      · exact Or.inr ⟨heq, h2⟩
  · rintro (hlt | ⟨heq, hle⟩)
    · exact ⟨le_of_lt hlt, Or.inl (ne_of_lt hlt)⟩
    · exact ⟨le_of_eq heq, Or.inr hle⟩

lemma lexGt_eq_true_le {a b : ℚ × ℚ} (h : lexGt a b = true) : lexLe b a := by
  rw [lexGt] at h
  rcases Bool.or_eq_true_iff.mp h with h' | h'
  · exact Or.inl (of_decide_eq_true h')
  · rcases Bool.and_eq_true_iff.mp h' with ⟨h1, h2⟩
    exact Or.inr ⟨(of_decide_eq_true h1).symm, le_of_lt (of_decide_eq_true h2)⟩

lemma insertDesc_perm {α : Type} (key : α → ℚ × ℚ) (x : α) (l : List α) :
    (insertDesc key x l).Perm (x :: l) := by
  induction l with
  | nil => rfl
  | cons y ys ih =>
      rw [insertDesc]
      by_cases h : lexGt (key y) (key x) = true
      · rw [if_pos h]
        exact (ih.cons y).trans (List.Perm.swap x y ys)
      · rw [if_neg h]

lemma sortDesc_perm {α : Type} (key : α → ℚ × ℚ) (l : List α) :
    (sortDesc key l).Perm l := by
  induction l with
  | nil => rfl
  | cons x xs ih =>
      rw [sortDesc]
      exact (insertDesc_perm key x (sortDesc key xs)).trans (ih.cons x)

lemma mem_insertDesc {α : Type} {key : α → ℚ × ℚ} {x z : α} {l : List α}
    (h : z ∈ insertDesc key x l) : z = x ∨ z ∈ l := by
  have := (insertDesc_perm key x l).mem_iff.mp h
  simpa using this

/-- Descending sortedness along the ranking key. -/
def SortedDesc {α : Type} (key : α → ℚ × ℚ) (l : List α) : Prop :=
  l.Pairwise fun a b => lexLe (key b) (key a)

lemma insertDesc_sorted {α : Type} {key : α → ℚ × ℚ} {l : List α} (x : α)
    (h : SortedDesc key l) : SortedDesc key (insertDesc key x l) := by
  induction l with
  | nil => simp [insertDesc, SortedDesc]
  | cons y ys ih =>
      rw [SortedDesc, List.pairwise_cons] at h
      rw [insertDesc]
      by_cases hc : lexGt (key y) (key x) = true
      · rw [if_pos hc]
        rw [SortedDesc, List.pairwise_cons]
        constructor
        · intro z hz
          rcases mem_insertDesc hz with hz' | hz'
          · rw [hz']; exact lexGt_eq_true_le hc
          · exact h.1 z hz'
        · exact ih h.2
      · rw [if_neg hc]
        rw [SortedDesc, List.pairwise_cons]
        constructor
        · intro z hz
          rcases List.mem_cons.mp hz with hz' | hz'
          · rw [hz']
            exact lexGt_eq_false_iff.mp (Bool.not_eq_true _ ▸ hc)
          · exact lexLe_trans (h.1 z hz')
              (lexGt_eq_false_iff.mp (Bool.not_eq_true _ ▸ hc))
        · exact List.Pairwise.cons h.1 h.2

lemma sortDesc_sorted {α : Type} (key : α → ℚ × ℚ) (l : List α) :
    SortedDesc key (sortDesc key l) := by
  induction l with
  | nil => exact List.Pairwise.nil
  | cons x xs ih => exact insertDesc_sorted x ih

/-- `enumerate(ranked, start=s)` rank assignment: when the user ids of a
ranked list are distinct, looking every element's id back up in the list
recovers consecutive positions. -/
lemma rank_enum :
    ∀ (l : List UserStats), (l.map UserStats.user_id).Nodup →
      ∀ s : ℕ, l.map (fun u => s + rankOf l u.user_id) = List.range' s l.length := by
  intro l
  induction l with
  | nil => intro _ _; rfl
  | cons x xs ih =>
      intro h s
      rw [List.map_cons, List.length_cons, List.range'_succ]
      rw [List.map_cons] at h
      have hx : rankOf (x :: xs) x.user_id = 0 := by
        rw [rankOf, List.findIdx_cons]
        simp
      have hne : ∀ u ∈ xs, (x.user_id == u.user_id) = false := by
        intro u hu
        have hx_notin : x.user_id ∉ xs.map UserStats.user_id := (List.nodup_cons.mp h).1
        have : u.user_id ∈ xs.map UserStats.user_id := List.mem_map_of_mem _ hu
        exact beq_eq_false_iff_ne.mpr fun hh => hx_notin (hh ▸ this)
      have htail : xs.map (fun u => s + rankOf (x :: xs) u.user_id) =
          xs.map (fun u => (s + 1) + rankOf xs u.user_id) := by
        apply List.map_congr_left
        intro u hu
        rw [rankOf, List.findIdx_cons, hne u hu]
        show s + (xs.findIdx fun v => v.user_id == u.user_id) + 1 = _
        rw [rankOf]
        omega
      rw [hx, htail, ih (List.nodup_cons.mp h).2 (s + 1)]
      simp

/-! ## Canonical forms of the two fold steps -/

lemma applyMessage_invalid (mts : List (ℤ × ℚ)) (cn : List (ℤ × String)) (d30 ts : ℤ)
    (st : FoldState) (m : Msg) (h : m.user_id = 0 ∨ m.message_id = 0) :
    applyMessage mts cn d30 ts st m = st := by
  rw [applyMessage, if_pos h]

lemma applyMessage_no_ts (mts : List (ℤ × ℚ)) (cn : List (ℤ × String)) (d30 ts : ℤ)
    (st : FoldState) (m : Msg) (h : ¬(m.user_id = 0 ∨ m.message_id = 0))
    (ht : m.timestamp = none) :
    applyMessage mts cn d30 ts st m =
      { st with user_stats := ensure_user mts st.user_stats m.user_id none } := by
  obtain ⟨mid, uid, cid, cont, tso⟩ := m
  cases tso with
  | none => rw [applyMessage, if_neg h]
  | some t => exact absurd ht (by simp)

/-- Canonical form of one message step on a valid row. -/
lemma applyMessage_eq (mts : List (ℤ × ℚ)) (cn : List (ℤ × String)) (d30 ts : ℤ)
    (st : FoldState) (m : Msg) (t : ℤ) (h : ¬(m.user_id = 0 ∨ m.message_id = 0))
    (ht : m.timestamp = some t) :
    applyMessage mts cn d30 ts st m =
      (let channel_name := getA cn m.channel_id ("channel-" ++ toString m.channel_id)
       let category := classify_message m.content channel_name
       let raw_cp := CATEGORY_CP category * channel_weight channel_name
       let day := dateOf t
      { user_stats :=
          modifyA (ensure_user mts st.user_stats m.user_id none) m.user_id
            (initUser mts m.user_id none) (msgUserUpdate category raw_cp day d30)
        message_owner := setA st.message_owner m.message_id m.user_id
        category_totals := modifyA st.category_totals category {} (catTotalUpdate raw_cp day d30)
        daily_total_cp :=
          if day ≥ ts then modifyA st.daily_total_cp day 0 (· + raw_cp) else st.daily_total_cp
        daily_total_messages :=
          if day ≥ ts then modifyA st.daily_total_messages day 0 (· + 1)
          else st.daily_total_messages
        daily_active_users :=
          if day ≥ ts then modifyA st.daily_active_users day [] (fun s => insertS s m.user_id)
          else st.daily_active_users
        heatmap_messages := modifyA st.heatmap_messages (weekdayOf t, hourOf t) 0 (· + 1)
        heatmap_cp := modifyA st.heatmap_cp (weekdayOf t, hourOf t) 0 (· + raw_cp)
        edge_weights := st.edge_weights }) := by
  obtain ⟨mid, uid, cid, cont, tso⟩ := m
  cases tso with
  | none => exact absurd ht (by simp)
  | some t' =>
      have ht' : t' = t := Option.some.inj ht
      subst ht'
      rw [applyMessage, if_neg h]
      by_cases hc : dateOf t' ≥ ts
      · simp only [if_pos hc]
      · simp only [if_neg hc]

lemma applyReaction_invalid (mts : List (ℤ × ℚ)) (d30 ts : ℤ)
    (st : FoldState) (r : Reaction) (h : r.user_id = 0) :
    applyReaction mts d30 ts st r = st := by
  rw [applyReaction, if_pos h]

lemma applyReaction_no_ts (mts : List (ℤ × ℚ)) (d30 ts : ℤ)
    (st : FoldState) (r : Reaction) (h : ¬r.user_id = 0) (ht : r.created_at = none) :
    applyReaction mts d30 ts st r =
      { st with user_stats := ensure_user mts st.user_stats r.user_id none } := by
  obtain ⟨mid, uid, tso, w⟩ := r
  cases tso with
  | none => rw [applyReaction, if_neg h]
  | some t => exact absurd ht (by simp)

/-- Canonical form of one reaction step on a valid row. -/
lemma applyReaction_eq (mts : List (ℤ × ℚ)) (d30 ts : ℤ)
    (st : FoldState) (r : Reaction) (t : ℤ) (h : ¬r.user_id = 0)
    (ht : r.created_at = some t) :
    applyReaction mts d30 ts st r =
      (let day := dateOf t
      { user_stats :=
          modifyA (ensure_user mts st.user_stats r.user_id none) r.user_id
            (initUser mts r.user_id none) (reactionUserUpdate day d30)
        message_owner := st.message_owner
        category_totals := st.category_totals
        daily_total_cp :=
          if day ≥ ts then modifyA st.daily_total_cp day 0 (· + REACTION_GIVE_CP)
          else st.daily_total_cp
        daily_total_messages := st.daily_total_messages
        daily_active_users :=
          if day ≥ ts then modifyA st.daily_active_users day [] (fun s => insertS s r.user_id)
          else st.daily_active_users
        heatmap_messages := st.heatmap_messages
        heatmap_cp := st.heatmap_cp
        edge_weights :=
          match lookupA st.message_owner r.message_id with
          | none => st.edge_weights
          | some target_id =>
              if target_id ≠ 0 ∧ target_id ≠ r.user_id then
                modifyA st.edge_weights (r.user_id, target_id) 0 (· + 1)
              else st.edge_weights }) := by
  obtain ⟨mid, uid, tso, w⟩ := r
  cases tso with
  | none => exact absurd ht (by simp)
  | some t' =>
      have ht' : t' = t := Option.some.inj ht
      subst ht'
      rw [applyReaction, if_neg h]
      by_cases hc : dateOf t' ≥ ts
      · simp only [if_pos hc]
        cases lookupA st.message_owner mid with
        | none => rfl
        | some tgt =>
            by_cases he : tgt ≠ 0 ∧ tgt ≠ uid
            · simp only [if_pos he]
            · simp only [if_neg he]
      · simp only [if_neg hc]
        cases lookupA st.message_owner mid with
        | none => rfl
        | some tgt =>
            by_cases he : tgt ≠ 0 ∧ tgt ≠ uid
            · simp only [if_pos he]
            · simp only [if_neg he]


/-! ## Invariants of the aggregation fold -/

/-- Fold preservation of an invariant. -/
lemma foldl_preserve {σ τ : Type} (P : σ → Prop) (f : σ → τ → σ)
    (l : List τ) (h : ∀ s x, x ∈ l → P s → P (f s x)) :
    ∀ s, P s → P (l.foldl f s) := by
  induction l with
  | nil => intro s hs; exact hs
  | cons x xs ih =>
      intro s hs
      rw [List.foldl_cons]
      exact ih (fun s' y hy => h s' y (List.mem_cons_of_mem _ hy))
        (f s x) (h s x (List.mem_cons_self _ _) hs)

lemma msgUserUpdate_user_id (c : String) (r : ℚ) (d d30 : ℤ) (u : UserStats) :
    (msgUserUpdate c r d d30 u).user_id = u.user_id := by
  rw [msgUserUpdate]
  split <;> rfl

lemma reactionUserUpdate_user_id (d d30 : ℤ) (u : UserStats) :
    (reactionUserUpdate d d30 u).user_id = u.user_id := by
  rw [reactionUserUpdate]
  split <;> rfl

lemma deriveUser_user_id (today : ℤ) (u : UserStats) :
    (deriveUser today u).user_id = u.user_id := rfl

lemma assignRanks_user_id (a b : List UserStats) (u : UserStats) :
    (assignRanks a b u).user_id = u.user_id := rfl

/-- The keying invariant of the `user_stats` dict: distinct keys, and every
entry's `user_id` field equals its key. -/
def StatsInv (stats : List (ℤ × UserStats)) : Prop :=
  (stats.map Prod.fst).Nodup ∧ ∀ p ∈ stats, p.2.user_id = p.1

lemma statsInv_setA {stats : List (ℤ × UserStats)} {k : ℤ} {v : UserStats}
    (h : StatsInv stats) (hv : v.user_id = k) : StatsInv (setA stats k v) := by
  constructor
  · rw [setA_map_fst]
    split
    · exact h.1
    · next hk =>
        rw [List.nodup_append]
        refine ⟨h.1, List.nodup_singleton _, ?_⟩
        intro a ha hb
        rw [List.mem_singleton] at hb
        exact hk (hb ▸ ha)
  · intro p hp
    rcases mem_setA hp with h' | h'
    · rw [h']; exact hv
    · exact h.2 p h'

lemma statsInv_modifyA {stats : List (ℤ × UserStats)} {k : ℤ} {d : UserStats}
    {f : UserStats → UserStats} (h : StatsInv stats) (hd : d.user_id = k)
    (hf : ∀ u, (f u).user_id = u.user_id) : StatsInv (modifyA stats k d f) := by
  apply statsInv_setA h
  rw [hf]
  rw [getA]
  cases hl : lookupA stats k with
  | none => exact hd
  | some u => exact h.2 (k, u) (lookupA_some_mem hl)

lemma statsInv_ensure {member_ts : List (ℤ × ℚ)} {stats : List (ℤ × UserStats)}
    {uid : ℤ} {un : Option String} (h : StatsInv stats) :
    StatsInv (ensure_user member_ts stats uid un) := by
  cases hl : lookupA stats uid with
  | none =>
      rw [ensure_user, hl]
      constructor
      · rw [List.map_append, List.nodup_append]
        refine ⟨h.1, List.nodup_singleton _, ?_⟩
        intro a ha hb
        rw [List.map_singleton, List.mem_singleton] at hb
        have hb' : a = uid := hb
        rw [lookupA_eq_none] at hl
        exact hl (hb' ▸ ha)
      · intro p hp
        rcases List.mem_append.mp hp with h' | h'
        · exact h.2 p h'
        · rw [List.mem_singleton] at h'
          rw [h']
          rfl
  | some u =>
      rw [ensure_user, hl]
      cases un with
      | none => exact h
      | some name =>
          show StatsInv (if _ then _ else _)
          split
          · exact statsInv_setA h (h.2 (uid, u) (lookupA_some_mem hl))
          · exact h

lemma statsInv_applyMessage (mts : List (ℤ × ℚ)) (cn : List (ℤ × String)) (d30 ts : ℤ)
    (st : FoldState) (m : Msg) (h : StatsInv st.user_stats) :
    StatsInv (applyMessage mts cn d30 ts st m).user_stats := by
  by_cases hg : m.user_id = 0 ∨ m.message_id = 0
  · rw [applyMessage_invalid mts cn d30 ts st m hg]; exact h
  · cases ht : m.timestamp with
    | none =>
        rw [applyMessage_no_ts mts cn d30 ts st m hg ht]
        exact statsInv_ensure h
    | some t =>
        rw [applyMessage_eq mts cn d30 ts st m t hg ht]
        exact statsInv_modifyA (statsInv_ensure h) rfl (msgUserUpdate_user_id _ _ _ _)

lemma statsInv_applyReaction (mts : List (ℤ × ℚ)) (d30 ts : ℤ)
    (st : FoldState) (r : Reaction) (h : StatsInv st.user_stats) :
    StatsInv (applyReaction mts d30 ts st r).user_stats := by
  by_cases hg : r.user_id = 0
  · rw [applyReaction_invalid mts d30 ts st r hg]; exact h
  · cases ht : r.created_at with
    | none =>
        rw [applyReaction_no_ts mts d30 ts st r hg ht]
        exact statsInv_ensure h
    | some t =>
        rw [applyReaction_eq mts d30 ts st r t hg ht]
        exact statsInv_modifyA (statsInv_ensure h) rfl (reactionUserUpdate_user_id _ _)


/-! ## Invariants and ranking properties of the build -/

lemma statsInv_nil : StatsInv [] := ⟨List.nodup_nil, by intro p hp; simp at hp⟩

lemma statsInv_initialState (mts : List (ℤ × ℚ)) (users : List UserRow) :
    StatsInv (initialState mts users).user_stats := by
  rw [initialState]
  refine foldl_preserve (fun st : FoldState => StatsInv st.user_stats) _ users ?_ {} statsInv_nil
  intro s u _ hs
  by_cases hu : u.user_id = 0
  · rw [if_pos hu]; exact hs
  · rw [if_neg hu]; exact statsInv_ensure hs

lemma statsInv_coreState (td mu now : ℤ) (snap : Snapshot) :
    StatsInv (coreState td mu now snap).user_stats := by
  rw [coreState]
  refine foldl_preserve (fun st : FoldState => StatsInv st.user_stats) _ _ ?_ _
    (foldl_preserve (fun st : FoldState => StatsInv st.user_stats) _ _ ?_ _
      (statsInv_initialState _ _))
  · intro s r _ hs; exact statsInv_applyReaction _ _ _ s r hs
  · intro s m _ hs; exact statsInv_applyMessage _ _ _ _ s m hs

lemma statsInv_mapValues {l : List (ℤ × UserStats)} (g : UserStats → UserStats)
    (hg : ∀ u, (g u).user_id = u.user_id) (h : StatsInv l) :
    StatsInv (l.map fun p => (p.1, g p.2)) := by
  constructor
  · rw [List.map_map]
    have : (Prod.fst ∘ fun p : ℤ × UserStats => (p.1, g p.2)) = Prod.fst := rfl
    rw [this]
    exact h.1
  · intro p hp
    rcases List.mem_map.mp hp with ⟨q, hq, hpq⟩
    rw [← hpq]
    show (g q.2).user_id = q.1
    rw [hg]
    exact h.2 q hq

lemma statsInv_coreStats (td mu now : ℤ) (snap : Snapshot) :
    StatsInv (coreStats td mu now snap) := by
  rw [coreStats]
  exact statsInv_mapValues _ (deriveUser_user_id _) (statsInv_coreState td mu now snap)

lemma values_uid_eq_keys {l : List (ℤ × UserStats)} (h : StatsInv l) :
    (l.map Prod.snd).map UserStats.user_id = l.map Prod.fst := by
  rw [List.map_map]
  exact List.map_congr_left fun p hp => h.2 p hp

lemma ranked30Base_uid_nodup (td mu now : ℤ) (snap : Snapshot) :
    ((ranked30Base td mu now snap).map UserStats.user_id).Nodup := by
  have hperm := (sortDesc_perm key30 ((coreStats td mu now snap).map Prod.snd)).map
    UserStats.user_id
  rw [values_uid_eq_keys (statsInv_coreStats td mu now snap)] at hperm
  exact hperm.nodup_iff.mpr (statsInv_coreStats td mu now snap).1

lemma rankedTotBase_uid_nodup (td mu now : ℤ) (snap : Snapshot) :
    ((rankedTotBase td mu now snap).map UserStats.user_id).Nodup := by
  have hperm := (sortDesc_perm keyTotal ((coreStats td mu now snap).map Prod.snd)).map
    UserStats.user_id
  rw [values_uid_eq_keys (statsInv_coreStats td mu now snap)] at hperm
  exact hperm.nodup_iff.mpr (statsInv_coreStats td mu now snap).1


lemma lexGt_self (a : ℚ × ℚ) : lexGt a a = false := by
  simp [lexGt, lt_irrefl]

lemma insertDesc_split {α : Type} (key : α → ℚ × ℚ) (x : α) (l : List α) :
    ∃ l₁ l₂, l = l₁ ++ l₂ ∧ insertDesc key x l = l₁ ++ x :: l₂ ∧
      ∀ e ∈ l₁, lexGt (key e) (key x) = true := by
  induction l with
  | nil => exact ⟨[], [], rfl, rfl, by simp⟩
  | cons y ys ih =>
      by_cases h : lexGt (key y) (key x) = true
      · obtain ⟨l₁, l₂, he, hi, hgt⟩ := ih
        refine ⟨y :: l₁, l₂, by rw [List.cons_append, ← he], ?_, ?_⟩
        · rw [insertDesc, if_pos h, hi]; rfl
        · intro e he'
          rcases List.mem_cons.mp he' with rfl | hm
          · exact h
          · exact hgt e hm
      · exact ⟨[], y :: ys, rfl, by rw [insertDesc, if_neg h]; rfl, by simp⟩

lemma sublist_insertDesc {α : Type} (key : α → ℚ × ℚ) (x : α) {s l : List α}
    (h : s.Sublist l) : s.Sublist (insertDesc key x l) := by
  obtain ⟨l₁, l₂, he, hi, _⟩ := insertDesc_split key x l
  rw [hi]
  rw [he] at h
  exact h.trans ((List.append_sublist_append_left l₁).mpr (List.sublist_cons_self x l₂))

lemma pair_sublist_insertDesc_self {α : Type} (key : α → ℚ × ℚ) {x v : α} {l : List α}
    (hv : v ∈ l) (hkey : lexGt (key v) (key x) = false) :
    [x, v].Sublist (insertDesc key x l) := by
  obtain ⟨l₁, l₂, he, hi, hgt⟩ := insertDesc_split key x l
  rw [hi]
  have hv2 : v ∈ l₂ := by
    rw [he] at hv
    rcases List.mem_append.mp hv with h1 | h2
    · rw [hgt v h1] at hkey; exact absurd hkey (by simp)
    · exact h2
  have h1 : [x, v].Sublist (x :: l₂) := (List.singleton_sublist.mpr hv2).cons₂ x
  exact h1.trans (List.sublist_append_right l₁ (x :: l₂))

lemma sortDesc_stable_pair {α : Type} (key : α → ℚ × ℚ) {u v : α} {l : List α}
    (h : [u, v].Sublist l) (hk : key u = key v) :
    [u, v].Sublist (sortDesc key l) := by
  induction l with
  | nil => simp at h
  | cons y ys ih =>
      rw [sortDesc]
      cases h with
      | cons _ h' =>
          exact sublist_insertDesc key y (ih h')
      | cons₂ _ h' =>
          have hv : v ∈ sortDesc key ys :=
            (sortDesc_perm key ys).mem_iff.mpr (List.singleton_sublist.mp h')
          exact pair_sublist_insertDesc_self key hv (by rw [← hk]; exact lexGt_self _)


lemma pair_sublist_map {α β : Type} {f : α → β} {u v : β} :
    ∀ {l : List α}, [u, v].Sublist (l.map f) → ∃ a b, [a, b].Sublist l ∧ u = f a ∧ v = f b := by
  intro l
  induction l with
  | nil => intro h; simp at h
  | cons x xs ih =>
      intro h
      rw [List.map_cons] at h
      cases h with
      | cons _ h' =>
          obtain ⟨a, b, hs, hu, hv⟩ := ih h'
          exact ⟨a, b, hs.cons x, hu, hv⟩
      | cons₂ _ h' =>
          have hv : v ∈ xs.map f := List.singleton_sublist.mp h'
          obtain ⟨b, hb, hvb⟩ := List.mem_map.mp hv
          exact ⟨x, b, (List.singleton_sublist.mpr hb).cons₂ x, rfl, hvb.symm⟩

/-- C2 (amended): both rank orderings assign exactly the ranks 1..N in
order (dense, gapless, no collapsing); each ranked list is non-increasing
lexicographically in its `(effective, raw)` key and is a permutation of the
derived user entries; and users equal on both keys keep their
first-observation (insertion) order — not, as the claim says, user-id
order. -/
theorem ranking_dense_and_sorted (td ld mu now : ℤ) (snap : Snapshot) :
    ((build_core_model td ld mu now snap).ranked_30d.map UserStats.rank_30d =
      List.range' 1 (build_core_model td ld mu now snap).users_count) ∧
    ((build_core_model td ld mu now snap).ranked_total.map UserStats.rank_total =
      List.range' 1 (build_core_model td ld mu now snap).users_count) ∧
    SortedDesc key30 (build_core_model td ld mu now snap).ranked_30d ∧
    SortedDesc keyTotal (build_core_model td ld mu now snap).ranked_total ∧
    ((build_core_model td ld mu now snap).ranked_30d.Perm
      ((build_core_model td ld mu now snap).stats_by_user.map Prod.snd)) ∧
    ((build_core_model td ld mu now snap).ranked_total.Perm
      ((build_core_model td ld mu now snap).stats_by_user.map Prod.snd)) ∧
    (∀ u v : UserStats,
      [u, v].Sublist ((build_core_model td ld mu now snap).stats_by_user.map Prod.snd) →
      key30 u = key30 v →
      [u, v].Sublist (build_core_model td ld mu now snap).ranked_30d) ∧
    (∀ u v : UserStats,
      [u, v].Sublist ((build_core_model td ld mu now snap).stats_by_user.map Prod.snd) →
      keyTotal u = keyTotal v →
      [u, v].Sublist (build_core_model td ld mu now snap).ranked_total) := by
  have hinv := statsInv_coreStats td mu now snap
  have h30n := ranked30Base_uid_nodup td mu now snap
  have htotn := rankedTotBase_uid_nodup td mu now snap
  have hlen30 : (ranked30Base td mu now snap).length = (coreStats td mu now snap).length := by
    rw [ranked30Base, (sortDesc_perm key30 _).length_eq, List.length_map]
  have hlentot : (rankedTotBase td mu now snap).length = (coreStats td mu now snap).length := by
    rw [rankedTotBase, (sortDesc_perm keyTotal _).length_eq, List.length_map]
  have hmaps : ((coreStats td mu now snap).map (fun p => (p.1,
        assignRanks (ranked30Base td mu now snap) (rankedTotBase td mu now snap) p.2))).map
        Prod.snd =
      ((coreStats td mu now snap).map Prod.snd).map
        (assignRanks (ranked30Base td mu now snap) (rankedTotBase td mu now snap)) := by
    rw [List.map_map, List.map_map]
    exact List.map_congr_left fun p _ => rfl
  have hstats : (build_core_model td ld mu now snap).stats_by_user =
      (coreStats td mu now snap).map (fun p => (p.1,
        assignRanks (ranked30Base td mu now snap) (rankedTotBase td mu now snap) p.2)) := rfl
  refine ⟨?_, ?_, ?_, ?_, ?_, ?_, ?_, ?_⟩
  · show ((ranked30Base td mu now snap).map
        (assignRanks (ranked30Base td mu now snap) (rankedTotBase td mu now snap))).map
        UserStats.rank_30d = List.range' 1 (coreStats td mu now snap).length
    rw [List.map_map]
    rw [show (UserStats.rank_30d ∘
        assignRanks (ranked30Base td mu now snap) (rankedTotBase td mu now snap)) =
        fun u => 1 + rankOf (ranked30Base td mu now snap) u.user_id from rfl]
    rw [rank_enum _ h30n 1, hlen30]
  · show ((rankedTotBase td mu now snap).map
        (assignRanks (ranked30Base td mu now snap) (rankedTotBase td mu now snap))).map
        UserStats.rank_total = List.range' 1 (coreStats td mu now snap).length
    rw [List.map_map]
    rw [show (UserStats.rank_total ∘
        assignRanks (ranked30Base td mu now snap) (rankedTotBase td mu now snap)) =
        fun u => 1 + rankOf (rankedTotBase td mu now snap) u.user_id from rfl]
    rw [rank_enum _ htotn 1, hlentot]
  · exact List.pairwise_map.mpr (sortDesc_sorted key30 _)
  · exact List.pairwise_map.mpr (sortDesc_sorted keyTotal _)
  · show ((ranked30Base td mu now snap).map
        (assignRanks (ranked30Base td mu now snap) (rankedTotBase td mu now snap))).Perm _
    rw [hstats, hmaps]
    exact (sortDesc_perm key30 _).map _
  · show ((rankedTotBase td mu now snap).map
        (assignRanks (ranked30Base td mu now snap) (rankedTotBase td mu now snap))).Perm _
    rw [hstats, hmaps]
    exact (sortDesc_perm keyTotal _).map _
  · intro u v hsub hk
    rw [hstats, hmaps] at hsub
    obtain ⟨a, b, hab, hu, hv⟩ := pair_sublist_map hsub
    have hk2 : key30 a = key30 b := by
      have h1 : key30 u = key30 a := by rw [hu]; rfl
      have h2 : key30 v = key30 b := by rw [hv]; rfl
      rw [← h1, ← h2, hk]
    have hst := sortDesc_stable_pair key30 hab hk2
    have hfin := hst.map
      (assignRanks (ranked30Base td mu now snap) (rankedTotBase td mu now snap))
    rw [hu, hv]
    simpa using hfin
  · intro u v hsub hk
    rw [hstats, hmaps] at hsub
    obtain ⟨a, b, hab, hu, hv⟩ := pair_sublist_map hsub
    have hk2 : keyTotal a = keyTotal b := by
      have h1 : keyTotal u = keyTotal a := by rw [hu]; rfl
      have h2 : keyTotal v = keyTotal b := by rw [hv]; rfl
      rw [← h1, ← h2, hk]
    have hst := sortDesc_stable_pair keyTotal hab hk2
    have hfin := hst.map
      (assignRanks (ranked30Base td mu now snap) (rankedTotBase td mu now snap))
    rw [hu, hv]
    simpa using hfin


/-! ## Claim theorems: voting power, classifier, determinism, heatmap -/

lemma calc_vp_nonpos {x : ℚ} (hx : x ≤ 0) : calc_vp x = 1 := by
  rw [calc_vp, if_pos hx]

lemma calc_vp_pos_eval {x : ℚ} (hx : 0 < x) :
    calc_vp x = max 1 (min 6 ((Nat.log 2 ⌊x + 1⌋.toNat : ℤ) + 1)) := by
  rw [calc_vp, if_neg (not_le.mpr hx)]
  rfl

lemma calc_vp_range (x : ℚ) : 1 ≤ calc_vp x ∧ calc_vp x ≤ 6 := by
  by_cases hx : x ≤ 0
  · rw [calc_vp_nonpos hx]; exact ⟨le_refl 1, by norm_num⟩
  · rw [calc_vp_pos_eval (not_le.mp hx)]
    exact ⟨le_max_left _ _, max_le (by norm_num) (min_le_left _ _)⟩

lemma floor_succ_pos {x : ℚ} (hx : 0 < x) : 1 ≤ ⌊x + 1⌋ :=
  Int.le_floor.mpr (by push_cast; linarith)

lemma calc_vp_log_bounds {x : ℚ} (hx : 0 < x) :
    (2:ℚ) ^ Nat.log 2 ⌊x + 1⌋.toNat ≤ x + 1 ∧
      x + 1 < (2:ℚ) ^ (Nat.log 2 ⌊x + 1⌋.toNat + 1) := by
  have h1 : (1:ℤ) ≤ ⌊x + 1⌋ := floor_succ_pos hx
  have hcast : ((⌊x + 1⌋.toNat : ℤ)) = ⌊x + 1⌋ := Int.toNat_of_nonneg (by omega)
  have hnz : ⌊x + 1⌋.toNat ≠ 0 := by omega
  constructor
  · have hp := Nat.pow_log_le_self 2 hnz
    have h2 : ((2:ℕ) ^ Nat.log 2 ⌊x + 1⌋.toNat : ℚ) ≤ ((⌊x + 1⌋.toNat : ℕ) : ℚ) := by
      exact_mod_cast hp
    have h3 : ((⌊x + 1⌋.toNat : ℕ) : ℚ) ≤ x + 1 := by
      rw [show ((⌊x + 1⌋.toNat : ℕ) : ℚ) = ((⌊x + 1⌋ : ℤ) : ℚ) by exact_mod_cast hcast]
      exact Int.floor_le _
    calc (2:ℚ) ^ Nat.log 2 ⌊x + 1⌋.toNat
        = ((2:ℕ) ^ Nat.log 2 ⌊x + 1⌋.toNat : ℚ) := by push_cast; ring
      _ ≤ _ := le_trans h2 h3
  · have hp := Nat.lt_pow_succ_log_self (by norm_num : 1 < 2) ⌊x + 1⌋.toNat
    have h2 : x + 1 < ((⌊x + 1⌋.toNat : ℕ) : ℚ) + 1 := by
      rw [show ((⌊x + 1⌋.toNat : ℕ) : ℚ) = ((⌊x + 1⌋ : ℤ) : ℚ) by exact_mod_cast hcast]
      exact Int.lt_floor_add_one _
    have h3 : ((⌊x + 1⌋.toNat : ℕ) : ℚ) + 1 ≤ ((2:ℕ) ^ (Nat.log 2 ⌊x + 1⌋.toNat + 1) : ℚ) := by
      exact_mod_cast Nat.succ_le_of_lt hp
    calc x + 1 < _ := h2
      _ ≤ ((2:ℕ) ^ (Nat.log 2 ⌊x + 1⌋.toNat + 1) : ℚ) := h3
      _ = (2:ℚ) ^ (Nat.log 2 ⌊x + 1⌋.toNat + 1) := by push_cast; ring

lemma calc_vp_mono {x y : ℚ} (h : x ≤ y) : calc_vp x ≤ calc_vp y := by
  by_cases hx : x ≤ 0
  · rw [calc_vp_nonpos hx]; exact (calc_vp_range y).1
  · have hx' : 0 < x := not_le.mp hx
    have hy' : 0 < y := lt_of_lt_of_le hx' h
    rw [calc_vp_pos_eval hx', calc_vp_pos_eval hy']
    have hfl : ⌊x + 1⌋.toNat ≤ ⌊y + 1⌋.toNat :=
      Int.toNat_le_toNat (Int.floor_le_floor (by linarith))
    have hlog : Nat.log 2 ⌊x + 1⌋.toNat ≤ Nat.log 2 ⌊y + 1⌋.toNat :=
      Nat.log_mono_right hfl
    exact max_le_max (le_refl 1)
      (min_le_min (le_refl 6) (by exact_mod_cast Nat.add_le_add_right hlog 1))

lemma calc_vp_ge_31 {x : ℚ} (h : 31 ≤ x) : calc_vp x = 6 := by
  have h6 := calc_vp_mono h
  have hr := (calc_vp_range x).2
  have h31 : calc_vp 31 = 6 := by with_unfolding_all rfl
  omega

/-- C1 (amended): `calc_vp` is the clamp of `floor(log2(e + 1)) + 1` to
`[1, 6]`; it is non-decreasing and always in `[1, 6]`; non-positive
effective score yields 1; at effective score 30 voting power is 5; at 31 it
jumps to 6 and stays capped for all larger inputs.  (The claim's own
examples put the jump between 31 and 32; the code jumps between 30 and 31.)
The `Nat.log` bound conjunct pins `Nat.log 2 ⌊x + 1⌋.toNat` as the
mathematical `floor(log2(x + 1))`. -/
theorem calc_vp_clamped_log2_curve :
    (∀ x : ℚ, x ≤ 0 → calc_vp x = 1) ∧
    (∀ x y : ℚ, x ≤ y → calc_vp x ≤ calc_vp y) ∧
    (∀ x : ℚ, 1 ≤ calc_vp x ∧ calc_vp x ≤ 6) ∧
    (∀ x : ℚ, 0 < x →
      calc_vp x = max 1 (min 6 ((Nat.log 2 ⌊x + 1⌋.toNat : ℤ) + 1)) ∧
      (2:ℚ) ^ Nat.log 2 ⌊x + 1⌋.toNat ≤ x + 1 ∧
      x + 1 < (2:ℚ) ^ (Nat.log 2 ⌊x + 1⌋.toNat + 1)) ∧
    calc_vp 0 = 1 ∧ calc_vp 30 = 5 ∧ calc_vp 31 = 6 ∧
    (∀ x : ℚ, 31 ≤ x → calc_vp x = 6) :=
  ⟨fun _ hx => calc_vp_nonpos hx,
   fun _ _ h => calc_vp_mono h,
   calc_vp_range,
   fun _ hx => ⟨calc_vp_pos_eval hx, (calc_vp_log_bounds hx).1, (calc_vp_log_bounds hx).2⟩,
   by with_unfolding_all rfl,
   by with_unfolding_all rfl,
   by with_unfolding_all rfl,
   fun _ hx => calc_vp_ge_31 hx⟩

/-- Witness for C1 at concrete inputs. -/
theorem calc_vp_clamped_log2_curve_witness :
    calc_vp (-2) = 1 ∧ calc_vp 3 ≤ calc_vp 7 ∧
      calc_vp 3 = max 1 (min 6 ((Nat.log 2 ⌊(3:ℚ) + 1⌋.toNat : ℤ) + 1)) ∧
      calc_vp 100 = 6 :=
  ⟨calc_vp_clamped_log2_curve.1 (-2) (by norm_num),
   calc_vp_clamped_log2_curve.2.1 3 7 (by norm_num),
   (calc_vp_clamped_log2_curve.2.2.2.1 3 (by norm_num)).1,
   calc_vp_clamped_log2_curve.2.2.2.2.2.2.2 100 (by norm_num)⟩

/-- C1 counterexample: at effective score 31 the code yields voting power 6,
not 5 as the claim's example asserts; 5 is attained at 30, so the saturation
jump is between 30 and 31, not between 31 and 32. -/
theorem calc_vp_at_31_is_six : calc_vp 31 = 6 ∧ calc_vp 31 ≠ 5 ∧ calc_vp 30 = 5 := by
  have h6 : calc_vp 31 = 6 := by with_unfolding_all rfl
  refine ⟨h6, ?_, by with_unfolding_all rfl⟩
  rw [h6]
  decide

set_option maxRecDepth 8000 in
/-- C3: the classifier is a pure cascade: empty → MISC, URL → INFO,
OPS-keyword channel → OPS (beating the length rules), fewer than five word
characters → VIBE, more than 200 characters → INSIGHT, else MISC; its
output is always one of the five categories.  The concrete cases are the
ones the spec fixes. -/
theorem classify_message_contract :
    classify_message (some "") "general" = "MISC" ∧
    classify_message (some "check https://example.com") "general" = "INFO" ∧
    classify_message (some "k") "general" = "VIBE" ∧
    classify_message (some (String.mk (List.replicate 250 'a'))) "general" = "INSIGHT" ∧
    classify_message (some "see you") "ops-announcements" = "OPS" ∧
    (∀ (content : Option String) (channel : String),
      trimChars ((content.getD "").data) ≠ [] →
      hasUrl (trimChars ((content.getD "").data)) = false →
      contains_any channel OPS_CHANNEL_HINTS = true →
      classify_message content channel = "OPS") ∧
    (∀ (content : Option String) (channel : String),
      classify_message content channel ∈ ["INFO", "INSIGHT", "VIBE", "OPS", "MISC"]) := by
  refine ⟨by decide, by decide, by decide, by decide, by decide, ?_, ?_⟩
  · intro c ch h1 h2 h3
    simp only [classify_message]
    rw [if_neg h1, h2, h3]
    simp
  · intro c ch
    simp only [classify_message]
    split
    · simp
    · split
      · simp
      · split
        · simp
        · split
          · simp
          · split <;> simp

/-- Witness for C3's conditional conjunct at a concrete input. -/
theorem classify_message_contract_witness :
    classify_message (some "short note") "ops-planning" = "OPS" :=
  classify_message_contract.2.2.2.2.2.1 (some "short note") "ops-planning"
    (by decide) (by decide) (by decide)


/-- A two-user snapshot for concrete checks: users 5 and 3 post one
identical message each (user 5 observed first), so both end tied on every
score. -/
def tieSnap : Snapshot :=
  { messages := [⟨100, 5, 9, some "hello", some (86400 * 19999)⟩,
                 ⟨101, 3, 9, some "hello", some (86400 * 19999)⟩]
    reactions := []
    channels := []
    users := []
    members := [] }

/-- The model built from `tieSnap` at `now` = epoch day 20000. -/
def tieModel : Model := build_core_model 14 90 5000 1728000000 tieSnap

/-- Placeholder entry for list lookups on concrete models. -/
def fallbackUser : UserStats := { user_id := 0, username := "", ts := 0 }

/-- First derived user entry of `tieModel` (user 5). -/
def tieU1 : UserStats := (tieModel.stats_by_user.map Prod.snd).headD fallbackUser

/-- Second derived user entry of `tieModel` (user 3). -/
def tieU2 : UserStats := ((tieModel.stats_by_user.map Prod.snd).drop 1).headD fallbackUser

/-- Witness for C2: on `tieSnap` the ranks are exactly 1, 2 and the
stability conjunct applies to the two tied users. -/
theorem ranking_dense_and_sorted_witness :
    tieModel.ranked_30d.map UserStats.rank_30d = List.range' 1 tieModel.users_count ∧
    [tieU1, tieU2].Sublist tieModel.ranked_30d :=
  ⟨(ranking_dense_and_sorted 14 90 5000 1728000000 tieSnap).1,
   (ranking_dense_and_sorted 14 90 5000 1728000000 tieSnap).2.2.2.2.2.2.1 tieU1 tieU2
     (by
       have hE : tieModel.stats_by_user.map Prod.snd = [tieU1, tieU2] := by
         with_unfolding_all rfl
       show [tieU1, tieU2].Sublist (tieModel.stats_by_user.map Prod.snd)
       rw [hE])
     (by with_unfolding_all rfl)⟩

/-- C2 counterexample: users 5 and 3 are tied on both ranking keys, yet the
built model ranks user 5 (observed first) ahead of user 3; ordering ties
"stably by user id" would put 3 first.  Ties follow first-observation
order, not user id. -/
theorem ranking_tie_not_by_user_id :
    tieModel.ranked_30d.map UserStats.user_id = [5, 3] ∧
    tieModel.ranked_30d.map key30 = [(1, 1), (1, 1)] ∧ (3:ℤ) < 5 :=
  ⟨by with_unfolding_all rfl, by with_unfolding_all rfl, by decide⟩

/-- C9: the build is a deterministic function of the configuration, the
explicit clock reading `now` and the snapshot of input rows: unchanged
inputs give bit-identical derived output.  In the shallow embedding the
absence of randomness and of hidden clock reads is by construction (the
source's single `datetime.now` call is the `now` argument); the theorem
records that only the listed inputs enter the result. -/
theorem build_core_model_deterministic :
    ∀ (td ld mu now : ℤ) (s1 s2 : Snapshot), s1 = s2 →
      build_core_model td ld mu now s1 = build_core_model td ld mu now s2 := by
  intro td ld mu now s1 s2 h
  rw [h]

/-- Witness for C9 at a concrete snapshot. -/
theorem build_core_model_deterministic_witness :
    build_core_model 14 90 5000 1728000000 tieSnap =
      build_core_model 14 90 5000 1728000000 tieSnap :=
  build_core_model_deterministic 14 90 5000 1728000000 tieSnap tieSnap rfl

/-- C4 (amended): the activity-heatmap bucket keyed by (weekday, hour) is
updated for every valid message regardless of the trend window, and
reactions never update the heatmap; the trend window gates only the daily
series. -/
theorem heatmap_update_unconditional :
    (∀ mts cn d30 ts st (m : Msg) (t : ℤ), ¬(m.user_id = 0 ∨ m.message_id = 0) →
      m.timestamp = some t →
      (applyMessage mts cn d30 ts st m).heatmap_messages =
        modifyA st.heatmap_messages (weekdayOf t, hourOf t) 0 (· + 1) ∧
      (applyMessage mts cn d30 ts st m).heatmap_cp =
        modifyA st.heatmap_cp (weekdayOf t, hourOf t) 0
          (· + CATEGORY_CP (classify_message m.content
                  (getA cn m.channel_id ("channel-" ++ toString m.channel_id))) *
                channel_weight (getA cn m.channel_id ("channel-" ++ toString m.channel_id)))) ∧
    (∀ mts d30 ts st (r : Reaction),
      (applyReaction mts d30 ts st r).heatmap_messages = st.heatmap_messages ∧
      (applyReaction mts d30 ts st r).heatmap_cp = st.heatmap_cp) ∧
    (∀ mts cn d30 ts st (m : Msg) (t : ℤ), ¬(m.user_id = 0 ∨ m.message_id = 0) →
      m.timestamp = some t → dateOf t < ts →
      (applyMessage mts cn d30 ts st m).daily_total_cp = st.daily_total_cp) := by
  refine ⟨?_, ?_, ?_⟩
  · intro mts cn d30 ts st m t hg ht
    rw [applyMessage_eq mts cn d30 ts st m t hg ht]
    exact ⟨rfl, rfl⟩
  · intro mts d30 ts st r
    by_cases hg : r.user_id = 0
    · rw [applyReaction_invalid mts d30 ts st r hg]
      exact ⟨rfl, rfl⟩
    · cases ht : r.created_at with
      | none =>
          rw [applyReaction_no_ts mts d30 ts st r hg ht]
          exact ⟨rfl, rfl⟩
      | some t =>
          rw [applyReaction_eq mts d30 ts st r t hg ht]
          exact ⟨rfl, rfl⟩
  · intro mts cn d30 ts st m t hg ht hlt
    rw [applyMessage_eq mts cn d30 ts st m t hg ht]
    show (if dateOf t ≥ ts then _ else st.daily_total_cp) = st.daily_total_cp
    rw [if_neg (not_le.mpr hlt)]

/-- Witness for C4 at one concrete message and one concrete reaction. -/
theorem heatmap_update_unconditional_witness :
    (applyMessage [] [] 0 0 {} ⟨100, 5, 9, none, some 86400⟩).heatmap_messages =
      modifyA (({} : FoldState)).heatmap_messages (weekdayOf 86400, hourOf 86400) 0 (· + 1) ∧
    (applyReaction [] 0 0 {} ⟨100, 5, some 86400, 1⟩).heatmap_messages =
      ({} : FoldState).heatmap_messages :=
  ⟨(heatmap_update_unconditional.1 [] [] 0 0 {} ⟨100, 5, 9, none, some 86400⟩ 86400
      (by decide) rfl).1,
   (heatmap_update_unconditional.2.1 [] 0 0 {} ⟨100, 5, some 86400, 1⟩).1⟩

/-- A snapshot whose single valid message (day 19990) lies outside the
one-day trend window of `now` = day 20000 but inside the 90-day lookback. -/
def heatSnap : Snapshot :=
  { messages := [⟨100, 5, 9, none, some (86400 * 19990)⟩]
    reactions := []
    channels := []
    users := []
    members := [] }

/-- The model built from `heatSnap` with `trend_days = 1`. -/
def heatModel : Model := build_core_model 1 90 5000 1728000000 heatSnap

/-- C4 counterexample: a message whose day precedes the trend-window start
still increments its heatmap bucket, while the daily series is left empty —
the heatmap update is not gated by the trend window, contrary to the claim's
"exactly when the day falls in the trend window". -/
theorem heatmap_updated_outside_trend_window :
    dateOf (86400 * 19990) < trendStart 1 1728000000 ∧
    heatModel.heatmap_messages = [((1, 0), 1)] ∧
    heatModel.daily_total_messages = [] ∧
    heatModel.daily_total_cp = [] :=
  ⟨by decide, by with_unfolding_all rfl, by with_unfolding_all rfl,
   by with_unfolding_all rfl⟩


/-! ## Claim theorems: trust-score lookup -/

lemma tsOfRow_bounds (r : MemberRow) : 0 ≤ tsOfRow r ∧ tsOfRow r ≤ 100 :=
  ⟨le_max_left _ _, max_le (by norm_num) (min_le_left _ _)⟩

lemma tsMapForCol_bounds {rows : List MemberRow} {ids : List ℤ} {col : String}
    {p : ℤ × ℚ} (hp : p ∈ tsMapForCol rows ids col) : 0 ≤ p.2 ∧ p.2 ≤ 100 := by
  rw [tsMapForCol] at hp
  refine foldl_preserve (fun m : List (ℤ × ℚ) => ∀ q ∈ m, 0 ≤ q.2 ∧ q.2 ≤ 100) _ rows
    ?_ [] (by intro q hq; simp at hq) p hp
  intro m r _ hm q hq
  by_cases h1 : idColValue r col ∈ ids
  · rw [if_pos h1] at hq
    by_cases h2 : idColValue r col = 0
    · rw [if_pos h2] at hq; exact hm q hq
    · rw [if_neg h2] at hq
      rcases mem_setA hq with h' | h'
      · rw [h']; exact tsOfRow_bounds r
      · exact hm q h'
  · rw [if_neg h1] at hq; exact hm q hq

/-- C5 (amended): the trust score is the collaborator-supplied scalar
clamped to [0,100]; the candidate id columns are tried in order and the
first non-empty map wins; a user absent from the winning map gets the
default 100; but a supplied-yet-falsy value (such as 0) also falls through
to the default — the default is not used "exactly when no value is
supplied". -/
theorem trust_score_lookup :
    (∀ (rows : List MemberRow) (ids : List ℤ) (p : ℤ × ℚ),
      p ∈ fetch_members_ts_by_ids rows ids → 0 ≤ p.2 ∧ p.2 ≤ 100) ∧
    (∀ (rows : List MemberRow) (ids : List ℤ), ids ≠ [] →
      tsMapForCol rows ids "user_id" ≠ [] →
      fetch_members_ts_by_ids rows ids = tsMapForCol rows ids "user_id") ∧
    (∀ (rows : List MemberRow) (ids : List ℤ), ids ≠ [] →
      tsMapForCol rows ids "user_id" = [] →
      tsMapForCol rows ids "member_id" ≠ [] →
      fetch_members_ts_by_ids rows ids = tsMapForCol rows ids "member_id") ∧
    (∀ (mts : List (ℤ × ℚ)) (uid : ℤ) (un : Option String) (v : ℚ),
      lookupA mts uid = some v → (initUser mts uid un).ts = v) ∧
    (∀ (mts : List (ℤ × ℚ)) (uid : ℤ) (un : Option String),
      lookupA mts uid = none → (initUser mts uid un).ts = DEFAULT_TS) ∧
    (∀ (r : MemberRow) (v : ℚ), r.ts = some v → v ≠ 0 →
      tsOfRow r = max 0 (min 100 v)) ∧
    (∀ r : MemberRow,
      (r.ts = none ∨ r.ts = some 0) → (r.trust_score = none ∨ r.trust_score = some 0) →
      (r.ts_score = none ∨ r.ts_score = some 0) → (r.trust = none ∨ r.trust = some 0) →
      tsOfRow r = 100) := by
  refine ⟨?_, ?_, ?_, ?_, ?_, ?_, ?_⟩
  · intro rows ids p hp
    rw [fetch_members_ts_by_ids] at hp
    dsimp only at hp
    by_cases hids : ids = []
    · rw [if_pos hids] at hp; simp at hp
    · rw [if_neg hids] at hp
      cases hf : (ID_CANDIDATES.map (tsMapForCol rows ids)).find? fun m => !m.isEmpty with
      | none => rw [hf] at hp; simp at hp
      | some m =>
          rw [hf] at hp
          have hm := List.mem_of_find?_eq_some hf
          rcases List.mem_map.mp hm with ⟨col, _, hcol⟩
          rw [← hcol] at hp
          exact tsMapForCol_bounds hp
  · intro rows ids hids hne
    rw [fetch_members_ts_by_ids, if_neg hids]
    dsimp only
    rw [show ID_CANDIDATES.map (tsMapForCol rows ids) =
      [tsMapForCol rows ids "user_id", tsMapForCol rows ids "member_id",
       tsMapForCol rows ids "discord_user_id", tsMapForCol rows ids "id"] from rfl]
    rw [List.find?_cons_of_pos _ (by simpa using hne)]
    rfl
  · intro rows ids hids hemp hne
    rw [fetch_members_ts_by_ids, if_neg hids]
    dsimp only
    rw [show ID_CANDIDATES.map (tsMapForCol rows ids) =
      [tsMapForCol rows ids "user_id", tsMapForCol rows ids "member_id",
       tsMapForCol rows ids "discord_user_id", tsMapForCol rows ids "id"] from rfl]
    rw [List.find?_cons_of_neg _ (by simp [hemp]), List.find?_cons_of_pos _ (by simpa using hne)]
    rfl
  · intro mts uid un v hv
    show getA mts uid DEFAULT_TS = v
    rw [getA, hv]
    rfl
  · intro mts uid un hv
    show getA mts uid DEFAULT_TS = DEFAULT_TS
    rw [getA, hv]
    rfl
  · intro r v hv hvz
    rw [tsOfRow, show firstTruthy [r.ts, r.trust_score, r.ts_score, r.trust] DEFAULT_TS = v from by
      rw [hv, firstTruthy, if_neg hvz]]
  · intro r h1 h2 h3 h4
    have hfalls : firstTruthy [r.ts, r.trust_score, r.ts_score, r.trust] DEFAULT_TS =
        DEFAULT_TS := by
      rcases h1 with h1 | h1 <;> rcases h2 with h2 | h2 <;> rcases h3 with h3 | h3 <;>
        rcases h4 with h4 | h4 <;>
        simp [firstTruthy, h1, h2, h3, h4]
    rw [tsOfRow, hfalls]
    rfl

/-- A members row supplying an explicit trust value of 0 for user 7. -/
def zeroTsRow : MemberRow := ⟨some 7, none, none, none, some 0, none, none, none⟩

/-- C5 counterexample: user 7 supplies trust 0, yet the lookup returns the
default 100 (the falsy 0 falls through Python's `or` chain); under the
claim the result would be the clamped supplied value 0. -/
theorem trust_zero_supplied_defaults_to_100 :
    fetch_members_ts_by_ids [zeroTsRow] [7] = [(7, 100)] ∧
    zeroTsRow.ts = some 0 ∧
    max 0 (min 100 (0:ℚ)) = 0 ∧ (100:ℚ) ≠ 0 :=
  ⟨by with_unfolding_all rfl, rfl, by norm_num, by norm_num⟩

/-- A members row supplying trust 50 for user 7. -/
def fiftyTsRow : MemberRow := ⟨some 7, none, none, none, some 50, none, none, none⟩

/-- Witness for C5 at concrete rows. -/
theorem trust_score_lookup_witness :
    (0 ≤ ((7:ℤ), (100:ℚ)).2 ∧ ((7:ℤ), (100:ℚ)).2 ≤ 100) ∧
    fetch_members_ts_by_ids [fiftyTsRow] [7] = tsMapForCol [fiftyTsRow] [7] "user_id" ∧
    (initUser [(7, 50)] 7 none).ts = 50 ∧
    (initUser [(7, 50)] 9 none).ts = DEFAULT_TS ∧
    tsOfRow fiftyTsRow = max 0 (min 100 50) ∧
    tsOfRow zeroTsRow = 100 := by
  refine ⟨?_, ?_, ?_, ?_, ?_, ?_⟩
  · refine trust_score_lookup.1 [zeroTsRow] [7] (7, 100) ?_
    have hE : fetch_members_ts_by_ids [zeroTsRow] [7] = [(7, 100)] := by
      with_unfolding_all rfl
    rw [hE]
    exact List.mem_singleton.mpr rfl
  · refine trust_score_lookup.2.1 [fiftyTsRow] [7] (by decide) ?_
    have hE : tsMapForCol [fiftyTsRow] [7] "user_id" = [(7, 50)] := by
      with_unfolding_all rfl
    rw [hE]
    decide
  · exact trust_score_lookup.2.2.2.1 [(7, 50)] 7 none 50 (by with_unfolding_all rfl)
  · exact trust_score_lookup.2.2.2.2.1 [(7, 50)] 9 none (by with_unfolding_all rfl)
  · exact trust_score_lookup.2.2.2.2.2.1 fiftyTsRow 50 rfl (by norm_num)
  · exact trust_score_lookup.2.2.2.2.2.2 zeroTsRow (Or.inr rfl) (Or.inl rfl) (Or.inl rfl)
      (Or.inl rfl)


/-! ## Claim theorems: trend window -/

/-- Keys of the daily series never precede the trend-window start. -/
def DailyWithin (ts : ℤ) (st : FoldState) : Prop :=
  (∀ p ∈ st.daily_total_cp, ts ≤ p.1) ∧ (∀ p ∈ st.daily_total_messages, ts ≤ p.1) ∧
    (∀ p ∈ st.daily_active_users, ts ≤ p.1)

lemma dailyWithin_applyMessage (mts : List (ℤ × ℚ)) (cn : List (ℤ × String)) (d30 ts : ℤ)
    (st : FoldState) (m : Msg) (h : DailyWithin ts st) :
    DailyWithin ts (applyMessage mts cn d30 ts st m) := by
  by_cases hg : m.user_id = 0 ∨ m.message_id = 0
  · rw [applyMessage_invalid mts cn d30 ts st m hg]; exact h
  · cases ht : m.timestamp with
    | none => rw [applyMessage_no_ts mts cn d30 ts st m hg ht]; exact h
    | some t =>
        rw [applyMessage_eq mts cn d30 ts st m t hg ht]
        by_cases hc : dateOf t ≥ ts
        · refine ⟨?_, ?_, ?_⟩ <;> intro p hp <;>
            [skip; skip; skip] <;>
            first
            | (rcases mem_modifyA (by simpa [if_pos hc] using hp) with h' | h'
               · rw [h']; exact hc
               · first
                  | exact h.1 p h'
                  | exact h.2.1 p h'
                  | exact h.2.2 p h')
        · refine ⟨?_, ?_, ?_⟩ <;> intro p hp <;>
            first
            | exact h.1 p (by simpa [if_neg hc] using hp)
            | exact h.2.1 p (by simpa [if_neg hc] using hp)
            | exact h.2.2 p (by simpa [if_neg hc] using hp)

lemma dailyWithin_applyReaction (mts : List (ℤ × ℚ)) (d30 ts : ℤ)
    (st : FoldState) (r : Reaction) (h : DailyWithin ts st) :
    DailyWithin ts (applyReaction mts d30 ts st r) := by
  by_cases hg : r.user_id = 0
  · rw [applyReaction_invalid mts d30 ts st r hg]; exact h
  · cases ht : r.created_at with
    | none => rw [applyReaction_no_ts mts d30 ts st r hg ht]; exact h
    | some t =>
        rw [applyReaction_eq mts d30 ts st r t hg ht]
        by_cases hc : dateOf t ≥ ts
        · refine ⟨?_, ?_, ?_⟩ <;> intro p hp
          · rcases mem_modifyA (by simpa [if_pos hc] using hp) with h' | h'
            · rw [h']; exact hc
            · exact h.1 p h'
          · exact h.2.1 p (by simpa using hp)
          · rcases mem_modifyA (by simpa [if_pos hc] using hp) with h' | h'
            · rw [h']; exact hc
            · exact h.2.2 p h'
        · refine ⟨?_, ?_, ?_⟩ <;> intro p hp
          · exact h.1 p (by simpa [if_neg hc] using hp)
          · exact h.2.1 p (by simpa using hp)
          · exact h.2.2 p (by simpa [if_neg hc] using hp)

lemma dailyWithin_initialState (mts : List (ℤ × ℚ)) (users : List UserRow) (ts : ℤ) :
    DailyWithin ts (initialState mts users) := by
  rw [initialState]
  refine foldl_preserve (DailyWithin ts) _ users ?_ {}
    ⟨by intro p hp; simp at hp, by intro p hp; simp at hp, by intro p hp; simp at hp⟩
  intro s u _ hs
  by_cases hu : u.user_id = 0
  · rw [if_pos hu]; exact hs
  · rw [if_neg hu]; exact hs

lemma dailyWithin_coreState (td mu now : ℤ) (snap : Snapshot) :
    DailyWithin (trendStart td now) (coreState td mu now snap) := by
  rw [coreState]
  refine foldl_preserve (DailyWithin (trendStart td now)) _ _ ?_ _
    (foldl_preserve (DailyWithin (trendStart td now)) _ _ ?_ _
      (dailyWithin_initialState _ _ _))
  · intro s r _ hs; exact dailyWithin_applyReaction _ _ _ s r hs
  · intro s m _ hs; exact dailyWithin_applyMessage _ _ _ _ s m hs

/-- C6 (amended): only the scan (fetch) window is widened to cover the
lookback — `scan_days = max(30, trend_days, lookback_days)` — while the
daily series is still restricted to the last `max(1, trend_days)` days:
every day key in the daily series is at or after the trend-window start,
even when `trend_days < lookback_days`. -/
theorem trend_window_not_widened (td ld mu now : ℤ) (snap : Snapshot) :
    (build_core_model td ld mu now snap).scan_days = max 30 (max td ld) ∧
    (∀ p ∈ (build_core_model td ld mu now snap).daily_total_cp,
      trendStart td now ≤ p.1) ∧
    (∀ p ∈ (build_core_model td ld mu now snap).daily_total_messages,
      trendStart td now ≤ p.1) ∧
    (∀ p ∈ (build_core_model td ld mu now snap).daily_active_users,
      trendStart td now ≤ p.1) := by
  have h := dailyWithin_coreState td mu now snap
  exact ⟨rfl, h.1, h.2.1, h.2.2⟩

/-- Witness for C6 at a concrete build whose daily series is non-empty. -/
theorem trend_window_not_widened_witness :
    tieModel.scan_days = max 30 (max 14 90) ∧ trendStart 14 1728000000 ≤ 19999 :=
  ⟨(trend_window_not_widened 14 90 5000 1728000000 tieSnap).1,
   (trend_window_not_widened 14 90 5000 1728000000 tieSnap).2.1 (19999, 2)
     (by
       have hE : tieModel.daily_total_cp = [(19999, 2)] := by with_unfolding_all rfl
       show (19999, (2:ℚ)) ∈ tieModel.daily_total_cp
       rw [hE]
       exact List.mem_singleton.mpr rfl)⟩

/-- A snapshot whose single message (day 19997) lies inside the 5-day
lookback but before the 1-day trend window of `now` = day 20000. -/
def trendSnap : Snapshot :=
  { messages := [⟨100, 5, 9, none, some (86400 * 19997)⟩]
    reactions := []
    channels := []
    users := []
    members := [] }

/-- The model built from `trendSnap` with `trend_days = 1 < lookback_days = 5`. -/
def trendModel : Model := build_core_model 1 5 5000 1728000000 trendSnap

/-- C6 counterexample: with `trend_days = 1` and `lookback_days = 5`, a
message 3 days back is within the lookback window and is aggregated
(`messages_count = 1`), yet the daily series stays empty — it is not
widened to cover the lookback window as the claim asserts. -/
theorem daily_series_not_covering_lookback :
    dateOf (1728000000 - 5 * 86400) ≤ dateOf (86400 * 19997) ∧ (1:ℤ) < 5 ∧
    trendModel.messages_count = 1 ∧
    trendModel.users_count = 1 ∧
    trendModel.daily_total_cp = [] ∧
    trendModel.daily_total_messages = [] :=
  ⟨by decide, by decide, by with_unfolding_all rfl, by with_unfolding_all rfl,
   by with_unfolding_all rfl, by with_unfolding_all rfl⟩


/-! ## Claim theorems: user-cap truncation -/

lemma ensure_keys {mts : List (ℤ × ℚ)} {stats : List (ℤ × UserStats)} {uid : ℤ}
    {un : Option String} {K : List ℤ} (h : ∀ p ∈ stats, p.1 ∈ K) (hu : uid ∈ K) :
    ∀ p ∈ ensure_user mts stats uid un, p.1 ∈ K := by
  intro p hp
  cases hl : lookupA stats uid with
  | none =>
      rw [ensure_user, hl] at hp
      rcases List.mem_append.mp hp with h' | h'
      · exact h p h'
      · rw [List.mem_singleton] at h'
        rw [h']
        exact hu
  | some u =>
      rw [ensure_user, hl] at hp
      cases un with
      | none => exact h p hp
      | some name =>
          dsimp only at hp
          by_cases hc : name ≠ "" ∧ listStartsWith u.username.data "user-".data = true
          · rw [if_pos hc] at hp
            rcases mem_setA hp with h' | h'
            · rw [h']; exact hu
            · exact h p h'
          · rw [if_neg hc] at hp
            exact h p hp

/-- All user ids recorded anywhere in a fold state lie in `K`. -/
def UsersWithin (K : List ℤ) (st : FoldState) : Prop :=
  (∀ p ∈ st.user_stats, p.1 ∈ K) ∧ (∀ p ∈ st.message_owner, p.2 ∈ K) ∧
    (∀ p ∈ st.daily_active_users, ∀ u ∈ p.2, u ∈ K) ∧
    (∀ e ∈ st.edge_weights, e.1.1 ∈ K ∧ e.1.2 ∈ K)

lemma usersWithin_applyMessage {K : List ℤ} (mts : List (ℤ × ℚ)) (cn : List (ℤ × String))
    (d30 ts : ℤ) (st : FoldState) (m : Msg) (hm : m.user_id ≠ 0 → m.user_id ∈ K)
    (h : UsersWithin K st) : UsersWithin K (applyMessage mts cn d30 ts st m) := by
  by_cases hg : m.user_id = 0 ∨ m.message_id = 0
  · rw [applyMessage_invalid mts cn d30 ts st m hg]; exact h
  · push_neg at hg
    have huK : m.user_id ∈ K := hm hg.1
    cases ht : m.timestamp with
    | none =>
        rw [applyMessage_no_ts mts cn d30 ts st m (by push_neg; exact hg) ht]
        exact ⟨ensure_keys h.1 huK, h.2.1, h.2.2.1, h.2.2.2⟩
    | some t =>
        rw [applyMessage_eq mts cn d30 ts st m t (by push_neg; exact hg) ht]
        refine ⟨?_, ?_, ?_, h.2.2.2⟩
        · intro p hp
          rcases mem_modifyA hp with h' | h'
          · rw [h']; exact huK
          · exact ensure_keys h.1 huK p h'
        · intro p hp
          rcases mem_setA hp with h' | h'
          · rw [h']; exact huK
          · exact h.2.1 p h'
        · by_cases hc : dateOf t ≥ ts
          · intro p hp u hu
            rcases mem_setA (by simpa [if_pos hc, modifyA] using hp) with h' | h'
            · rw [h'] at hu
              rcases mem_insertS hu with h'' | h''
              · rw [h'']; exact huK
              · rw [getA] at h''
                cases hl : lookupA st.daily_active_users (dateOf t) with
                | none => rw [hl] at h''; simp at h''
                | some s =>
                    rw [hl] at h''
                    exact h.2.2.1 (dateOf t, s) (lookupA_some_mem hl) u h''
            · exact h.2.2.1 p h' u hu
          · intro p hp u hu
            exact h.2.2.1 p (by simpa [if_neg hc] using hp) u hu

lemma usersWithin_applyReaction {K : List ℤ} (mts : List (ℤ × ℚ)) (d30 ts : ℤ)
    (st : FoldState) (r : Reaction) (hr : r.user_id ≠ 0 → r.user_id ∈ K)
    (h : UsersWithin K st) : UsersWithin K (applyReaction mts d30 ts st r) := by
  by_cases hg : r.user_id = 0
  · rw [applyReaction_invalid mts d30 ts st r hg]; exact h
  · have huK : r.user_id ∈ K := hr hg
    cases ht : r.created_at with
    | none =>
        rw [applyReaction_no_ts mts d30 ts st r hg ht]
        exact ⟨ensure_keys h.1 huK, h.2.1, h.2.2.1, h.2.2.2⟩
    | some t =>
        rw [applyReaction_eq mts d30 ts st r t hg ht]
        refine ⟨?_, h.2.1, ?_, ?_⟩
        · intro p hp
          rcases mem_modifyA hp with h' | h'
          · rw [h']; exact huK
          · exact ensure_keys h.1 huK p h'
        · by_cases hc : dateOf t ≥ ts
          · intro p hp u hu
            rcases mem_setA (by simpa [if_pos hc, modifyA] using hp) with h' | h'
            · rw [h'] at hu
              rcases mem_insertS hu with h'' | h''
              · rw [h'']; exact huK
              · rw [getA] at h''
                cases hl : lookupA st.daily_active_users (dateOf t) with
                | none => rw [hl] at h''; simp at h''
                | some s =>
                    rw [hl] at h''
                    exact h.2.2.1 (dateOf t, s) (lookupA_some_mem hl) u h''
            · exact h.2.2.1 p h' u hu
          · intro p hp u hu
            exact h.2.2.1 p (by simpa [if_neg hc] using hp) u hu
        · cases hl : lookupA st.message_owner r.message_id with
          | none => simpa [hl] using h.2.2.2
          | some tgt =>
              by_cases he : tgt ≠ 0 ∧ tgt ≠ r.user_id
              · intro e hee
                rcases mem_modifyA (by simpa [hl, if_pos he] using hee) with h' | h'
                · have h1 : e.1 = (r.user_id, tgt) := h'
                  have htgt : tgt ∈ K := h.2.1 (r.message_id, tgt) (lookupA_some_mem hl)
                  constructor
                  · rw [show e.1.1 = r.user_id from by rw [h1]]; exact huK
                  · rw [show e.1.2 = tgt from by rw [h1]]; exact htgt
                · exact h.2.2.2 e h'
              · intro e hee
                exact h.2.2.2 e (by simpa [hl, if_neg he] using hee)

lemma usersWithin_initialState {K : List ℤ} (mts : List (ℤ × ℚ)) (users : List UserRow)
    (hu : ∀ u ∈ users, u.user_id ∈ K) : UsersWithin K (initialState mts users) := by
  rw [initialState]
  refine foldl_preserve (UsersWithin K) _ users ?_ {}
    ⟨by intro p hp; simp at hp, by intro p hp; simp at hp,
     by intro p hp; simp at hp, by intro p hp; simp at hp⟩
  intro s u humem hs
  by_cases hz : u.user_id = 0
  · rw [if_pos hz]; exact hs
  · rw [if_neg hz]
    exact ⟨ensure_keys hs.1 (hu u humem), hs.2.1, hs.2.2.1, hs.2.2.2⟩


lemma seen_fold_mono {α : Type} (uidOf : α → ℤ) (l : List α) (acc : List ℤ) {x : ℤ}
    (h : x ∈ acc) :
    x ∈ l.foldl (fun a e => if uidOf e ≠ 0 ∧ uidOf e ∉ a then a ++ [uidOf e] else a) acc := by
  refine foldl_preserve (fun a => x ∈ a) _ l ?_ acc h
  intro a e _ hx
  by_cases hc : uidOf e ≠ 0 ∧ uidOf e ∉ a
  · rw [if_pos hc]; exact List.mem_append.mpr (Or.inl hx)
  · rw [if_neg hc]; exact hx

lemma seen_fold_mem {α : Type} (uidOf : α → ℤ) :
    ∀ (l : List α) (acc : List ℤ) (e : α), e ∈ l → uidOf e ≠ 0 →
      uidOf e ∈ l.foldl (fun a e => if uidOf e ≠ 0 ∧ uidOf e ∉ a then a ++ [uidOf e] else a)
        acc := by
  intro l
  induction l with
  | nil => intro acc e he; simp at he
  | cons y ys ih =>
      intro acc e he hz
      rcases List.mem_cons.mp he with rfl | hmem
      · rw [List.foldl_cons]
        apply seen_fold_mono
        by_cases hc : uidOf e ≠ 0 ∧ uidOf e ∉ acc
        · rw [if_pos hc]; exact List.mem_append.mpr (Or.inr (List.mem_singleton.mpr rfl))
        · rw [if_neg hc]
          push_neg at hc
          exact hc hz
      · rw [List.foldl_cons]
        exact ih _ e hmem hz

lemma mem_seen_of_msg {messages : List Msg} {reactions : List Reaction} {m : Msg}
    (hm : m ∈ messages) (hz : m.user_id ≠ 0) :
    m.user_id ∈ seenUserIds messages reactions := by
  rw [seenUserIds]
  exact seen_fold_mono (fun r : Reaction => r.user_id) reactions _
    (seen_fold_mem (fun m : Msg => m.user_id) messages [] m hm hz)

lemma mem_seen_of_react {messages : List Msg} {reactions : List Reaction} {r : Reaction}
    (hr : r ∈ reactions) (hz : r.user_id ≠ 0) :
    r.user_id ∈ seenUserIds messages reactions := by
  rw [seenUserIds]
  exact seen_fold_mem (fun r : Reaction => r.user_id) reactions _ r hr hz

lemma keptMessages_mem_kept (mu : ℤ) (snap : Snapshot) :
    ∀ m ∈ keptMessages mu snap, m.user_id ≠ 0 →
      m.user_id ∈ keptUserIds mu snap.messages snap.reactions := by
  intro m hm hz
  rw [keptMessages] at hm
  by_cases hc : 0 < mu ∧ ((seenUserIds snap.messages snap.reactions).length : ℤ) > mu
  · rw [if_pos hc] at hm
    exact of_decide_eq_true (List.mem_filter.mp hm).2
  · rw [if_neg hc] at hm
    rw [keptUserIds, if_neg hc]
    exact mem_seen_of_msg hm hz

lemma keptReactions_mem_kept (mu : ℤ) (snap : Snapshot) :
    ∀ r ∈ keptReactions mu snap, r.user_id ≠ 0 →
      r.user_id ∈ keptUserIds mu snap.messages snap.reactions := by
  intro r hr hz
  rw [keptReactions] at hr
  by_cases hc : 0 < mu ∧ ((seenUserIds snap.messages snap.reactions).length : ℤ) > mu
  · rw [if_pos hc] at hr
    exact of_decide_eq_true (List.mem_filter.mp hr).2
  · rw [if_neg hc] at hr
    rw [keptUserIds, if_neg hc]
    exact mem_seen_of_react hr hz

lemma usersWithin_coreState (td mu now : ℤ) (snap : Snapshot) :
    UsersWithin (keptUserIds mu snap.messages snap.reactions) (coreState td mu now snap) := by
  rw [coreState]
  refine foldl_preserve (UsersWithin _) _ _ ?_ _
    (foldl_preserve (UsersWithin _) _ _ ?_ _
      (usersWithin_initialState _ _ ?_))
  · intro s r hrm hs
    exact usersWithin_applyReaction _ _ _ s r (keptReactions_mem_kept mu snap r hrm) hs
  · intro s m hmm hs
    exact usersWithin_applyMessage _ _ _ _ s m (keptMessages_mem_kept mu snap m hmm) hs
  · intro u hu
    exact of_decide_eq_true (List.mem_filter.mp hu).2


lemma nodeDegree_keys {K : List ℤ} {edges : List ((ℤ × ℤ) × ℚ)}
    (he : ∀ e ∈ edges, e.1.1 ∈ K ∧ e.1.2 ∈ K) :
    ∀ p ∈ nodeDegree edges, p.1 ∈ K := by
  rw [nodeDegree]
  refine foldl_preserve (fun m : List (ℤ × ℚ) => ∀ p ∈ m, p.1 ∈ K) _ edges ?_ []
    (by intro p hp; simp at hp)
  intro m e hem hm p hp
  rcases mem_modifyA hp with h' | h'
  · rw [h']; exact (he e hem).2
  · rcases mem_modifyA h' with h'' | h''
    · rw [h'']; exact (he e hem).1
    · exact hm p h''

/-- C7: after the user cap triggers, exactly the first `max_users` observed
ids are kept, kept rows are exactly the rows of kept users, and no derived
aggregate of the built model carries any user id outside the kept set —
no orphaned partial data survives for a truncated-out user. -/
theorem user_cap_truncation (td ld mu now : ℤ) (snap : Snapshot) (uid : ℤ)
    (h : uid ∉ keptUserIds mu snap.messages snap.reactions) :
    (∀ p ∈ (build_core_model td ld mu now snap).stats_by_user, p.1 ≠ uid) ∧
    (∀ u ∈ (build_core_model td ld mu now snap).ranked_30d, u.user_id ≠ uid) ∧
    (∀ u ∈ (build_core_model td ld mu now snap).ranked_total, u.user_id ≠ uid) ∧
    (∀ p ∈ (build_core_model td ld mu now snap).message_owner, p.2 ≠ uid) ∧
    (∀ p ∈ (build_core_model td ld mu now snap).daily_active_users, uid ∉ p.2) ∧
    (∀ e ∈ (build_core_model td ld mu now snap).edge_weights,
      e.1.1 ≠ uid ∧ e.1.2 ≠ uid) ∧
    (∀ e ∈ (build_core_model td ld mu now snap).top_edges,
      e.1.1 ≠ uid ∧ e.1.2 ≠ uid) ∧
    (∀ p ∈ (build_core_model td ld mu now snap).top_nodes, p.1 ≠ uid) ∧
    ((0 < mu ∧ ((seenUserIds snap.messages snap.reactions).length : ℤ) > mu) →
      keptUserIds mu snap.messages snap.reactions =
        (seenUserIds snap.messages snap.reactions).take mu.toNat ∧
      keptMessages mu snap = snap.messages.filter
        (fun m => m.user_id ∈ keptUserIds mu snap.messages snap.reactions) ∧
      keptReactions mu snap = snap.reactions.filter
        (fun r => r.user_id ∈ keptUserIds mu snap.messages snap.reactions)) := by
  have hW := usersWithin_coreState td mu now snap
  have hInv := statsInv_coreState td mu now snap
  have hstatsK : ∀ p ∈ coreStats td mu now snap,
      p.1 ∈ keptUserIds mu snap.messages snap.reactions := by
    intro p hp
    rw [coreStats] at hp
    rcases List.mem_map.mp hp with ⟨q, hq, hpq⟩
    rw [← hpq]
    exact hW.1 q hq
  have hvalsK : ∀ u ∈ (coreStats td mu now snap).map Prod.snd,
      u.user_id ∈ keptUserIds mu snap.messages snap.reactions := by
    intro u hu
    rcases List.mem_map.mp hu with ⟨q, hq, hqu⟩
    rw [← hqu]
    have : q.2.user_id = q.1 := (statsInv_coreStats td mu now snap).2 q hq
    rw [this]
    exact hstatsK q hq
  refine ⟨?_, ?_, ?_, ?_, ?_, ?_, ?_, ?_, ?_⟩
  · intro p hp
    rcases List.mem_map.mp hp with ⟨q, hq, hpq⟩
    have : p.1 = q.1 := by rw [← hpq]
    rw [this]
    exact fun hc => h (hc ▸ hstatsK q hq)
  · intro u hu
    rcases List.mem_map.mp hu with ⟨v, hv, hvu⟩
    have hmem : v ∈ (coreStats td mu now snap).map Prod.snd :=
      (sortDesc_perm key30 _).subset hv
    have : u.user_id = v.user_id := by rw [← hvu]; rfl
    rw [this]
    exact fun hc => h (hc ▸ hvalsK v hmem)
  · intro u hu
    rcases List.mem_map.mp hu with ⟨v, hv, hvu⟩
    have hmem : v ∈ (coreStats td mu now snap).map Prod.snd :=
      (sortDesc_perm keyTotal _).subset hv
    have : u.user_id = v.user_id := by rw [← hvu]; rfl
    rw [this]
    exact fun hc => h (hc ▸ hvalsK v hmem)
  · intro p hp
    exact fun hc => h (hc ▸ hW.2.1 p hp)
  · intro p hp hin
    exact h (hW.2.2.1 p hp uid hin)
  · intro e he
    exact ⟨fun hc => h (hc ▸ (hW.2.2.2 e he).1), fun hc => h (hc ▸ (hW.2.2.2 e he).2)⟩
  · intro e he
    have he2 : e ∈ sortDesc (fun e : (ℤ × ℤ) × ℚ => (e.2, 0))
        (coreState td mu now snap).edge_weights := he
    have hmem : e ∈ (coreState td mu now snap).edge_weights :=
      (sortDesc_perm (fun e : (ℤ × ℤ) × ℚ => (e.2, 0)) _).subset he2
    exact ⟨fun hc => h (hc ▸ (hW.2.2.2 e hmem).1), fun hc => h (hc ▸ (hW.2.2.2 e hmem).2)⟩
  · intro p hp
    have hp2 : p ∈ sortDesc (fun n : ℤ × ℚ => (n.2, 0))
        (nodeDegree (sortDesc (fun e : (ℤ × ℤ) × ℚ => (e.2, 0))
          (coreState td mu now snap).edge_weights)) := hp
    have hmem : p ∈ nodeDegree (sortDesc (fun e : (ℤ × ℤ) × ℚ => (e.2, 0))
        (coreState td mu now snap).edge_weights) :=
      (sortDesc_perm (fun n : ℤ × ℚ => (n.2, 0)) _).subset hp2
    have hK := nodeDegree_keys (fun e he =>
      hW.2.2.2 e ((sortDesc_perm (fun e : (ℤ × ℤ) × ℚ => (e.2, 0)) _).subset he)) p hmem
    exact fun hc => h (hc ▸ hK)
  · intro hc
    refine ⟨by rw [keptUserIds, if_pos hc], by rw [keptMessages, if_pos hc],
      by rw [keptReactions, if_pos hc]⟩

/-- Snapshot with two observed users (5 first, then 3) for the cap check. -/
def capSnap : Snapshot :=
  { messages := [⟨100, 5, 9, none, some (86400 * 19999)⟩,
                 ⟨101, 3, 9, none, some (86400 * 19999)⟩]
    reactions := []
    channels := []
    users := []
    members := [] }

/-- The model built from `capSnap` with a user cap of 1. -/
def capModel : Model := build_core_model 14 90 1 1728000000 capSnap

/-- Witness for C7: with `max_users = 1` only user 5 (first observed) is
kept and user 3 leaves no trace in the model. -/
theorem user_cap_truncation_witness :
    (∀ p ∈ capModel.stats_by_user, p.1 ≠ 3) ∧
    (∀ u ∈ capModel.ranked_30d, u.user_id ≠ 3) ∧
    keptUserIds 1 capSnap.messages capSnap.reactions =
      (seenUserIds capSnap.messages capSnap.reactions).take 1 := by
  have H := user_cap_truncation 14 90 1 1728000000 capSnap 3 (by decide)
  exact ⟨H.1, H.2.1, (H.2.2.2.2.2.2.2.2 (by decide)).1⟩


/-! ## Claim theorems: self-reactions and reaction weights -/

lemma ensure_user_noop {mts : List (ℤ × ℚ)} {stats : List (ℤ × UserStats)} {uid : ℤ}
    {u : UserStats} (hl : lookupA stats uid = some u) :
    ensure_user mts stats uid none = stats := by
  rw [ensure_user, hl]

lemma reactionUserUpdate_raw_cp (d d30 : ℤ) (u : UserStats) :
    (reactionUserUpdate d d30 u).raw_cp_total = u.raw_cp_total + REACTION_GIVE_CP ∧
      (reactionUserUpdate d d30 u).reaction_given_total = u.reaction_given_total + 1 := by
  rw [reactionUserUpdate]
  split <;> exact ⟨rfl, rfl⟩

/-- Edge keys never join a user to themself. -/
def NoSelfEdge (st : FoldState) : Prop := ∀ e ∈ st.edge_weights, e.1.1 ≠ e.1.2

lemma noSelfEdge_applyMessage (mts : List (ℤ × ℚ)) (cn : List (ℤ × String)) (d30 ts : ℤ)
    (st : FoldState) (m : Msg) (h : NoSelfEdge st) :
    NoSelfEdge (applyMessage mts cn d30 ts st m) := by
  by_cases hg : m.user_id = 0 ∨ m.message_id = 0
  · rw [applyMessage_invalid mts cn d30 ts st m hg]; exact h
  · cases ht : m.timestamp with
    | none => rw [applyMessage_no_ts mts cn d30 ts st m hg ht]; exact h
    | some t => rw [applyMessage_eq mts cn d30 ts st m t hg ht]; exact h

lemma noSelfEdge_applyReaction (mts : List (ℤ × ℚ)) (d30 ts : ℤ)
    (st : FoldState) (r : Reaction) (h : NoSelfEdge st) :
    NoSelfEdge (applyReaction mts d30 ts st r) := by
  by_cases hg : r.user_id = 0
  · rw [applyReaction_invalid mts d30 ts st r hg]; exact h
  · cases ht : r.created_at with
    | none => rw [applyReaction_no_ts mts d30 ts st r hg ht]; exact h
    | some t =>
        rw [applyReaction_eq mts d30 ts st r t hg ht]
        cases hl : lookupA st.message_owner r.message_id with
        | none => intro e he; exact h e (by simpa [hl] using he)
        | some tgt =>
            by_cases he' : tgt ≠ 0 ∧ tgt ≠ r.user_id
            · intro e hee
              rcases mem_modifyA (by simpa [hl, if_pos he'] using hee) with h1 | h1
              · have h2 : e.1 = (r.user_id, tgt) := h1
                rw [show e.1.1 = r.user_id from by rw [h2], show e.1.2 = tgt from by rw [h2]]
                exact fun hc => he'.2 hc.symm
              · exact h e h1
            · intro e hee
              exact h e (by simpa [hl, if_neg he'] using hee)

lemma noSelfEdge_initialState (mts : List (ℤ × ℚ)) (users : List UserRow) :
    NoSelfEdge (initialState mts users) := by
  rw [initialState]
  refine foldl_preserve NoSelfEdge _ users ?_ {} (by intro e he; simp at he)
  intro s u _ hs
  by_cases hz : u.user_id = 0
  · rw [if_pos hz]; exact hs
  · rw [if_neg hz]; exact hs

/-- C8: a self-reaction (the reactor owns the reacted message) creates no
social-graph edge and gives the author no recipient-side score — the only
change to that user's entry is the reactor-side give credit of
`REACTION_GIVE_CP` (and its counters); entries of all other users are
untouched.  Globally, no edge of any built model joins a user to themself. -/
theorem self_reactions_excluded :
    (∀ (mts : List (ℤ × ℚ)) (d30 ts : ℤ) (st : FoldState) (r : Reaction) (t : ℤ)
        (u : UserStats),
      r.user_id ≠ 0 → r.created_at = some t →
      lookupA st.message_owner r.message_id = some r.user_id →
      lookupA st.user_stats r.user_id = some u →
      (applyReaction mts d30 ts st r).edge_weights = st.edge_weights ∧
      lookupA (applyReaction mts d30 ts st r).user_stats r.user_id =
        some (reactionUserUpdate (dateOf t) d30 u) ∧
      (∀ uid : ℤ, uid ≠ r.user_id →
        lookupA (applyReaction mts d30 ts st r).user_stats uid =
          lookupA st.user_stats uid) ∧
      (reactionUserUpdate (dateOf t) d30 u).raw_cp_total =
        u.raw_cp_total + REACTION_GIVE_CP ∧
      (reactionUserUpdate (dateOf t) d30 u).reaction_given_total =
        u.reaction_given_total + 1) ∧
    (∀ (td ld mu now : ℤ) (snap : Snapshot) (e : (ℤ × ℤ) × ℚ),
      e ∈ (build_core_model td ld mu now snap).edge_weights → e.1.1 ≠ e.1.2) := by
  constructor
  · intro mts d30 ts st r t u hz ht hmo hus
    rw [applyReaction_eq mts d30 ts st r t hz ht]
    refine ⟨?_, ?_, ?_, (reactionUserUpdate_raw_cp _ _ _).1,
      (reactionUserUpdate_raw_cp _ _ _).2⟩
    · show (match lookupA st.message_owner r.message_id with
        | none => st.edge_weights
        | some target_id =>
            if target_id ≠ 0 ∧ target_id ≠ r.user_id then
              modifyA st.edge_weights (r.user_id, target_id) 0 (· + 1)
            else st.edge_weights) = st.edge_weights
      rw [hmo]
      dsimp only
      rw [if_neg (by simp)]
    · show lookupA (modifyA (ensure_user mts st.user_stats r.user_id none) r.user_id
        (initUser mts r.user_id none) (reactionUserUpdate (dateOf t) d30)) r.user_id = _
      rw [ensure_user_noop hus, modifyA, lookupA_setA_self]
      rw [show getA st.user_stats r.user_id (initUser mts r.user_id none) = u from by
        rw [getA, hus]; rfl]
    · intro uid hne
      show lookupA (modifyA (ensure_user mts st.user_stats r.user_id none) r.user_id
        (initUser mts r.user_id none) (reactionUserUpdate (dateOf t) d30)) uid = _
      rw [ensure_user_noop hus, modifyA, lookupA_setA_ne _ _ hne]
  · intro td ld mu now snap e he
    have hcore : NoSelfEdge (coreState td mu now snap) := by
      rw [coreState]
      refine foldl_preserve NoSelfEdge _ _ ?_ _
        (foldl_preserve NoSelfEdge _ _ ?_ _ (noSelfEdge_initialState _ _))
      · intro s r _ hs; exact noSelfEdge_applyReaction _ _ _ s r hs
      · intro s m _ hs; exact noSelfEdge_applyMessage _ _ _ _ s m hs
    exact hcore e he

/-- A fold state in which user 5 owns message 100 and has a stats entry. -/
def selfState : FoldState :=
  { user_stats := [(5, initUser [] 5 none)], message_owner := [(100, 5)] }

/-- A snapshot in which user 3 reacts to user 5's message (a cross
reaction, so one edge exists and it is not a self-loop). -/
def crossSnap : Snapshot :=
  { messages := [⟨100, 5, 9, none, some (86400 * 19999)⟩]
    reactions := [⟨100, 3, some (86400 * 19999), 1⟩]
    channels := []
    users := []
    members := [] }

/-- The model built from `crossSnap`. -/
def crossModel : Model := build_core_model 14 90 5000 1728000000 crossSnap

/-- Witness for C8: a concrete self-reaction leaves the edge map unchanged
while crediting the reactor, and the one edge of `crossModel` is not a
self-loop. -/
theorem self_reactions_excluded_witness :
    (applyReaction [] 0 0 selfState ⟨100, 5, some 86400, 1⟩).edge_weights =
      selfState.edge_weights ∧
    lookupA (applyReaction [] 0 0 selfState ⟨100, 5, some 86400, 1⟩).user_stats 5 =
      some (reactionUserUpdate (dateOf 86400) 0 (initUser [] 5 none)) ∧
    (((3:ℤ), (5:ℤ)), (1:ℚ)).1.1 ≠ (((3:ℤ), (5:ℤ)), (1:ℚ)).1.2 := by
  have H := self_reactions_excluded.1 [] 0 0 selfState ⟨100, 5, some 86400, 1⟩ 86400
    (initUser [] 5 none) (by decide) rfl (by decide) (by with_unfolding_all rfl)
  refine ⟨H.1, H.2.1, ?_⟩
  refine self_reactions_excluded.2 14 90 5000 1728000000 crossSnap ((3, 5), 1) ?_
  have hE : crossModel.edge_weights = [((3, 5), 1)] := by with_unfolding_all rfl
  show (((3:ℤ), (5:ℤ)), (1:ℚ)) ∈ crossModel.edge_weights
  rw [hE]
  exact List.mem_singleton.mpr rfl


/-- Changing only the `weight` field of every reaction row. -/
def reweight (f : Reaction → ℚ) (snap : Snapshot) : Snapshot :=
  { snap with reactions := snap.reactions.map fun r => { r with weight := f r } }

lemma seen_reweight (f : Reaction → ℚ) (snap : Snapshot) :
    seenUserIds (reweight f snap).messages (reweight f snap).reactions =
      seenUserIds snap.messages snap.reactions := by
  show seenUserIds snap.messages (snap.reactions.map fun r => { r with weight := f r }) = _
  rw [seenUserIds, seenUserIds, List.foldl_map]

lemma kept_reweight (mu : ℤ) (f : Reaction → ℚ) (snap : Snapshot) :
    keptUserIds mu (reweight f snap).messages (reweight f snap).reactions =
      keptUserIds mu snap.messages snap.reactions := by
  rw [keptUserIds, keptUserIds, seen_reweight]

lemma keptMessages_reweight (mu : ℤ) (f : Reaction → ℚ) (snap : Snapshot) :
    keptMessages mu (reweight f snap) = keptMessages mu snap := by
  rw [keptMessages, keptMessages]
  simp only [seen_reweight, kept_reweight]
  rfl

lemma keptReactions_reweight (mu : ℤ) (f : Reaction → ℚ) (snap : Snapshot) :
    keptReactions mu (reweight f snap) =
      (keptReactions mu snap).map fun r => { r with weight := f r } := by
  rw [keptReactions, keptReactions]
  simp only [seen_reweight, kept_reweight]
  by_cases hc : 0 < mu ∧ ((seenUserIds snap.messages snap.reactions).length : ℤ) > mu
  · rw [if_pos hc, if_pos hc]
    show (snap.reactions.map fun r => { r with weight := f r }).filter _ = _
    rw [List.filter_map]
    rfl
  · rw [if_neg hc, if_neg hc]
    rfl

lemma keptUsers_reweight (mu : ℤ) (f : Reaction → ℚ) (snap : Snapshot) :
    keptUsers mu (reweight f snap) = keptUsers mu snap := by
  rw [keptUsers, keptUsers]
  simp only [kept_reweight]
  rfl

lemma memberTs_reweight (mu : ℤ) (f : Reaction → ℚ) (snap : Snapshot) :
    memberTs mu (reweight f snap) = memberTs mu snap := by
  rw [memberTs, memberTs, kept_reweight]
  rfl

lemma coreState_reweight (td mu now : ℤ) (f : Reaction → ℚ) (snap : Snapshot) :
    coreState td mu now (reweight f snap) = coreState td mu now snap := by
  rw [coreState, coreState, keptReactions_reweight, keptMessages_reweight,
    keptUsers_reweight, memberTs_reweight, List.foldl_map]
  rfl

lemma coreStats_reweight (td mu now : ℤ) (f : Reaction → ℚ) (snap : Snapshot) :
    coreStats td mu now (reweight f snap) = coreStats td mu now snap := by
  rw [coreStats, coreStats, coreState_reweight]

/-- C10: the per-row `weight` column of fetched reactions is ignored by the
aggregation: rewriting every reaction's weight arbitrarily leaves the built
model bit-identical; every valid reaction credits its reactor with exactly
the constant `REACTION_GIVE_CP = 1.0`; and every social-graph edge
increment is exactly `1.0`. -/
theorem reaction_weight_ignored :
    (∀ (td ld mu now : ℤ) (snap : Snapshot) (f : Reaction → ℚ),
      build_core_model td ld mu now (reweight f snap) =
        build_core_model td ld mu now snap) ∧
    (∀ (mts : List (ℤ × ℚ)) (d30 ts : ℤ) (st : FoldState) (r : Reaction) (t : ℤ)
        (u : UserStats),
      r.user_id ≠ 0 → r.created_at = some t →
      lookupA st.user_stats r.user_id = some u →
      lookupA (applyReaction mts d30 ts st r).user_stats r.user_id =
        some (reactionUserUpdate (dateOf t) d30 u) ∧
      (reactionUserUpdate (dateOf t) d30 u).raw_cp_total =
        u.raw_cp_total + REACTION_GIVE_CP) ∧
    (∀ (mts : List (ℤ × ℚ)) (d30 ts : ℤ) (st : FoldState) (r : Reaction) (t : ℤ)
        (tgt : ℤ),
      r.user_id ≠ 0 → r.created_at = some t →
      lookupA st.message_owner r.message_id = some tgt → tgt ≠ 0 → tgt ≠ r.user_id →
      (applyReaction mts d30 ts st r).edge_weights =
        modifyA st.edge_weights (r.user_id, tgt) 0 (· + 1)) := by
  refine ⟨?_, ?_, ?_⟩
  · intro td ld mu now snap f
    rw [build_core_model, build_core_model]
    simp only [coreState_reweight, coreStats_reweight, keptMessages_reweight,
      keptReactions_reweight, List.length_map]
    rw [show ranked30Base td mu now (reweight f snap) = ranked30Base td mu now snap from by
      rw [ranked30Base, ranked30Base, coreStats_reweight]]
    rw [show rankedTotBase td mu now (reweight f snap) = rankedTotBase td mu now snap from by
      rw [rankedTotBase, rankedTotBase, coreStats_reweight]]
  · intro mts d30 ts st r t u hz ht hus
    rw [applyReaction_eq mts d30 ts st r t hz ht]
    refine ⟨?_, (reactionUserUpdate_raw_cp _ _ _).1⟩
    show lookupA (modifyA (ensure_user mts st.user_stats r.user_id none) r.user_id
      (initUser mts r.user_id none) (reactionUserUpdate (dateOf t) d30)) r.user_id = _
    rw [ensure_user_noop hus, modifyA, lookupA_setA_self]
    rw [show getA st.user_stats r.user_id (initUser mts r.user_id none) = u from by
      rw [getA, hus]; rfl]
  · intro mts d30 ts st r t tgt hz ht hmo htgt hne
    rw [applyReaction_eq mts d30 ts st r t hz ht]
    show (match lookupA st.message_owner r.message_id with
      | none => st.edge_weights
      | some target_id =>
          if target_id ≠ 0 ∧ target_id ≠ r.user_id then
            modifyA st.edge_weights (r.user_id, target_id) 0 (· + 1)
          else st.edge_weights) = _
    rw [hmo]
    dsimp only
    rw [if_pos ⟨htgt, hne⟩]

/-- Witness for C10 at concrete inputs: an arbitrary reweighting of
`crossSnap`'s reaction leaves the model unchanged, and the concrete
self-owned state gets exactly the unit credit and unit edge increment. -/
theorem reaction_weight_ignored_witness :
    build_core_model 14 90 5000 1728000000 (reweight (fun _ => 42) crossSnap) =
      build_core_model 14 90 5000 1728000000 crossSnap ∧
    lookupA (applyReaction [] 0 0 selfState ⟨100, 5, some 86400, 1⟩).user_stats 5 =
      some (reactionUserUpdate (dateOf 86400) 0 (initUser [] 5 none)) ∧
    (applyReaction [] 0 0
        { selfState with user_stats := [(3, initUser [] 3 none)] }
        ⟨100, 3, some 86400, 7⟩).edge_weights =
      modifyA ({ selfState with
        user_stats := [(3, initUser [] 3 none)] } : FoldState).edge_weights (3, 5) 0
        (· + 1) :=
  ⟨reaction_weight_ignored.1 14 90 5000 1728000000 crossSnap (fun _ => 42),
   (reaction_weight_ignored.2.1 [] 0 0 selfState ⟨100, 5, some 86400, 1⟩ 86400
     (initUser [] 5 none) (by decide) rfl (by with_unfolding_all rfl)).1,
   reaction_weight_ignored.2.2 [] 0 0
     { selfState with user_stats := [(3, initUser [] 3 none)] }
     ⟨100, 3, some 86400, 7⟩ 86400 5 (by decide) rfl (by decide) (by decide) (by decide)⟩



end Dashboard
